import Mathlib

/-!
Verification development for the GenBank to SBOL3 bidirectional converter
(sbol_utilities/sbol3_genbank_conversion.py).

The converter is shallowly embedded: Python strings are modelled as lists of
characters, Python dicts as association lists with explicit update semantics,
and code that can raise exceptions returns `Except String`.  Definitions follow
the source line by line; the claims are settled as theorems about these
definitions at the end of the file.
-/

namespace SbolGenbank

open List

/-- Model of a Python string: a list of characters. -/
abbrev PyStr := List Char

/-- Convert a Lean string literal to the Python string model. -/
def pstr (s : String) : PyStr := s.toList

/-! ## Stable sorting, modelling the Python builtin sorted

Python `sorted` and `list.sort` are stable.  We model them with a structurally
recursive insertion sort (so that the kernel can evaluate it), which is stable:
an element is inserted before the first existing element it compares
less-or-equal to, i.e. after all earlier elements with an equal key. -/

/-- Insert an element into a sorted list, before the first element `b` with
`le a b`.  Processing the original list from the right (see `pySortBy`) makes
this a stable sort, matching Python sorted. -/
def insertSorted (le : α → α → Bool) (a : α) : List α → List α
  | [] => [a]
  | b :: bs => if le a b then a :: b :: bs else b :: insertSorted le a bs

/-- Stable insertion sort modelling the Python builtin sorted with a
less-or-equal comparison derived from the sort key. -/
def pySortBy (le : α → α → Bool) (l : List α) : List α :=
  l.foldr (insertSorted le) []

theorem insertSorted_perm (le : α → α → Bool) (a : α) (l : List α) :
    insertSorted le a l ~ a :: l := by
  induction l with
  | nil => simp [insertSorted]
  | cons b bs ih =>
    simp only [insertSorted]
    by_cases h : le a b
    · simp [h]
    · simp only [h, if_neg]
      exact (Perm.cons b ih).trans (Perm.swap a b bs)

theorem pySortBy_perm (le : α → α → Bool) (l : List α) : pySortBy le l ~ l := by
  induction l with
  | nil => simp [pySortBy]
  | cons a l ih =>
    have : pySortBy le (a :: l) = insertSorted le a (pySortBy le l) := rfl
    rw [this]
    exact (insertSorted_perm le a (pySortBy le l)).trans (Perm.cons a ih)

theorem insertSorted_pairwise (le : α → α → Bool)
    (htot : ∀ a b, le a b = true ∨ le b a = true)
    (htrans : ∀ a b c, le a b = true → le b c = true → le a c = true)
    (a : α) (l : List α) (h : l.Pairwise fun x y => le x y = true) :
    (insertSorted le a l).Pairwise fun x y => le x y = true := by
  induction l with
  | nil => simp [insertSorted]
  | cons b bs ih =>
    rcases pairwise_cons.1 h with ⟨hb, hbs⟩
    simp only [insertSorted]
    by_cases hab : le a b = true
    · rw [if_pos hab]
      refine pairwise_cons.2 ⟨?_, h⟩
      intro x hx
      rcases mem_cons.1 hx with rfl | hx
      · exact hab
      · exact htrans a b x hab (hb x hx)
    · rw [if_neg hab]
      refine pairwise_cons.2 ⟨?_, ih hbs⟩
      intro x hx
      have hmem := (insertSorted_perm le a bs).mem_iff.1 hx
      rcases mem_cons.1 hmem with rfl | hmem
      · rcases htot x b with h1 | h1
        · exact absurd h1 hab
        · exact h1
      · exact hb x hmem

theorem pySortBy_pairwise (le : α → α → Bool)
    (htot : ∀ a b, le a b = true ∨ le b a = true)
    (htrans : ∀ a b c, le a b = true → le b c = true → le a c = true)
    (l : List α) : (pySortBy le l).Pairwise fun x y => le x y = true := by
  induction l with
  | nil => simp [pySortBy]
  | cons a l ih => exact insertSorted_pairwise le htot htrans a (pySortBy le l) ih

theorem insertSorted_of_le_head (le : α → α → Bool) (a : α) (l : List α)
    (h : ∀ b ∈ l, le a b = true) : insertSorted le a l = a :: l := by
  cases l with
  | nil => rfl
  | cons b bs => simp [insertSorted, h b (mem_cons_self b bs)]

/-- Sorting an already sorted list is the identity. -/
theorem pySortBy_of_pairwise (le : α → α → Bool) (l : List α)
    (h : l.Pairwise fun x y => le x y = true) : pySortBy le l = l := by
  induction l with
  | nil => rfl
  | cons a l ih =>
    rcases pairwise_cons.1 h with ⟨ha, hl⟩
    have : pySortBy le (a :: l) = insertSorted le a (pySortBy le l) := rfl
    rw [this, ih hl, insertSorted_of_le_head le a l ha]

/-- A permutation of a list whose sort keys are strictly increasing sorts back
to exactly that list: the key order pins every position. -/
theorem pySortBy_perm_of_strict (f : α → Nat) (l l₂ : List α)
    (hperm : l₂ ~ l) (hstrict : l.Pairwise fun a b => f a < f b) :
    pySortBy (fun a b => f a ≤ f b) l₂ = l := by
  have htot : ∀ a b : α, (decide (f a ≤ f b)) = true ∨ (decide (f b ≤ f a)) = true := by
    intro a b
    rcases Nat.le_total (f a) (f b) with h | h
    · exact Or.inl (by simpa using h)
    · exact Or.inr (by simpa using h)
  have htrans : ∀ a b c : α, (decide (f a ≤ f b)) = true → (decide (f b ≤ f c)) = true →
      (decide (f a ≤ f c)) = true := by
    intro a b c h1 h2
    simp only [decide_eq_true_eq] at h1 h2 ⊢
    exact le_trans h1 h2
  have hsortedle : (pySortBy (fun a b => decide (f a ≤ f b)) l₂).Pairwise
      fun x y => (decide (f x ≤ f y)) = true := pySortBy_pairwise _ htot htrans l₂
  have hpermsort : pySortBy (fun a b => decide (f a ≤ f b)) l₂ ~ l :=
    (pySortBy_perm _ l₂).trans hperm
  -- keys of l are pairwise distinct, hence so are keys of the sorted list
  have hnd : (l.map f).Nodup :=
    (pairwise_map).2 (hstrict.imp fun h => Nat.ne_of_lt h)
  have hnd₂ : ((pySortBy (fun a b => decide (f a ≤ f b)) l₂).map f).Nodup :=
    ((hpermsort.map f).nodup_iff).2 hnd
  have hne : (pySortBy (fun a b => decide (f a ≤ f b)) l₂).Pairwise
      fun x y => f x ≠ f y := (pairwise_map).1 hnd₂
  have hsorted : (pySortBy (fun a b => decide (f a ≤ f b)) l₂).Pairwise
      fun x y => f x < f y := by
    refine (hsortedle.and hne).imp ?_
    intro a b hab
    have h1 : f a ≤ f b := by simpa using hab.1
    exact lt_of_le_of_ne h1 hab.2
  haveI : IsAntisymm α fun a b => f a < f b :=
    ⟨fun a b h1 h2 => absurd (Nat.lt_trans h1 h2) (Nat.lt_irrefl _)⟩
  exact List.eq_of_perm_of_sorted hpermsort hsorted hstrict

/-! ## Decimal digit strings, modelling Python str(n) and int(s) for n : Nat -/

/-- The character for a single decimal digit. -/
def digitChar (d : Nat) : Char := Char.ofNat (48 + d)

/-- Fuelled decimal rendering; fuel `n + 1` always suffices (see `natDigits`).
Structural recursion keeps the definition kernel-evaluable. -/
def natDigitsAux : Nat → Nat → PyStr
  | 0, _ => []
  | fuel + 1, n =>
    if n < 10 then [digitChar n]
    else natDigitsAux fuel (n / 10) ++ [digitChar (n % 10)]

/-- Model of the Python string rendering str(n) of a natural number. -/
def natDigits (n : Nat) : PyStr := natDigitsAux (n + 1) n

/-- Numeric value of a digit string, the accumulator loop of int(s). -/
def digitsToNat (s : PyStr) : Nat :=
  s.foldl (fun acc c => acc * 10 + (c.toNat - 48)) 0

/-- Decide whether a character is a decimal digit. -/
def isDigitChar (c : Char) : Bool := 48 ≤ c.toNat ∧ c.toNat ≤ 57

/-- Model of the Python int(s) conversion, restricted to plain digit strings
(the only shape this converter ever feeds to int). A non-digit string makes
Python raise ValueError, modelled by `none`. -/
def parseDigits? (s : PyStr) : Option Nat :=
  if s ≠ [] ∧ s.all isDigitChar then some (digitsToNat s) else none

theorem digitChar_toNat (d : Nat) (h : d < 10) : (digitChar d).toNat = 48 + d := by
  interval_cases d <;> decide

theorem digitChar_isDigit (d : Nat) (h : d < 10) : isDigitChar (digitChar d) = true := by
  interval_cases d <;> decide

theorem digitChar_ne_colon (d : Nat) (h : d < 10) : digitChar d ≠ ':' := by
  interval_cases d <;> decide

theorem natDigitsAux_ne_nil (fuel n : Nat) (h : n < fuel) : natDigitsAux fuel n ≠ [] := by
  induction fuel generalizing n with
  | zero => omega
  | succ fuel ih =>
    simp only [natDigitsAux]
    by_cases h10 : n < 10
    · simp [h10]
    · simp [h10]

theorem natDigitsAux_digits (fuel n : Nat) (h : n < fuel) :
    (natDigitsAux fuel n).all isDigitChar = true := by
  induction fuel generalizing n with
  | zero => omega
  | succ fuel ih =>
    simp only [natDigitsAux]
    by_cases h10 : n < 10
    · simp [h10, digitChar_isDigit n h10]
    · have hlt : n / 10 < fuel := by
        have := Nat.div_lt_self (by omega : 0 < n) (by omega : 1 < 10)
        omega
      have hmod : n % 10 < 10 := Nat.mod_lt n (by omega)
      simp only [h10, if_false, List.all_append]
      rw [ih (n / 10) hlt]
      simp [digitChar_isDigit _ hmod]

theorem natDigitsAux_roundtrip (fuel n : Nat) (h : n < fuel) :
    digitsToNat (natDigitsAux fuel n) = n := by
  induction fuel generalizing n with
  | zero => omega
  | succ fuel ih =>
    simp only [natDigitsAux]
    by_cases h10 : n < 10
    · rw [if_pos h10]
      simp only [digitsToNat, List.foldl_cons, List.foldl_nil]
      rw [digitChar_toNat n h10]
      omega
    · rw [if_neg h10]
      have hlt : n / 10 < fuel := by
        have := Nat.div_lt_self (by omega : 0 < n) (by omega : 1 < 10)
        omega
      have hmod : n % 10 < 10 := Nat.mod_lt n (by omega)
      simp only [digitsToNat, List.foldl_append, List.foldl_cons, List.foldl_nil]
      have hrt := ih (n / 10) hlt
      simp only [digitsToNat] at hrt
      rw [hrt, digitChar_toNat _ hmod]
      omega

theorem parseDigits_natDigits (n : Nat) : parseDigits? (natDigits n) = some n := by
  unfold parseDigits? natDigits
  rw [if_pos ⟨natDigitsAux_ne_nil (n + 1) n (Nat.lt_succ_self n),
      natDigitsAux_digits (n + 1) n (Nat.lt_succ_self n)⟩]
  rw [natDigitsAux_roundtrip (n + 1) n (Nat.lt_succ_self n)]

theorem natDigits_ne_colon (n : Nat) : ':' ∉ natDigits n := by
  intro hmem
  have hall := natDigitsAux_digits (n + 1) n (Nat.lt_succ_self n)
  rw [List.all_eq_true] at hall
  have := hall ':' hmem
  simp [isDigitChar] at this

/-! ## Python string splitting and joining -/

/-- Model of s.split(sep, 1): the text before the first separator and the text
after it; `none` when the separator does not occur (Python then returns the
one-element list [s], so an index [1] access raises IndexError). -/
def pySplitFirst (sep : Char) : PyStr → Option (PyStr × PyStr)
  | [] => none
  | c :: rest =>
    if c = sep then some ([], rest)
    else
      match pySplitFirst sep rest with
      | some (a, b) => some (c :: a, b)
      | none => none

/-- Model of the unbounded s.split(sep): Python always returns a non-empty
list, with ""[.split] giving [""]. -/
def pySplitAll (sep : Char) : PyStr → List PyStr
  | [] => [[]]
  | c :: rest =>
    if c = sep then [] :: pySplitAll sep rest
    else
      match pySplitAll sep rest with
      | [] => [[c]]
      | p :: ps => (c :: p) :: ps

/-- Model of sep.join(parts) for a one-character separator. -/
def pyJoin (sep : Char) : List PyStr → PyStr
  | [] => []
  | [s] => s
  | s :: rest => s ++ sep :: pyJoin sep rest

theorem pySplitFirst_append (sep : Char) (a b : PyStr) (ha : sep ∉ a) :
    pySplitFirst sep (a ++ sep :: b) = some (a, b) := by
  induction a with
  | nil => simp [pySplitFirst]
  | cons c cs ih =>
    have hc : c ≠ sep := fun h => ha (h ▸ mem_cons_self c cs)
    have hcs : sep ∉ cs := fun h => ha (mem_cons_of_mem c h)
    show pySplitFirst sep (c :: (cs ++ sep :: b)) = some (c :: cs, b)
    simp only [pySplitFirst, if_neg hc]
    rw [ih hcs]

theorem pySplitAll_ne_nil (sep : Char) (s : PyStr) : pySplitAll sep s ≠ [] := by
  induction s with
  | nil => simp [pySplitAll]
  | cons c rest ih =>
    simp only [pySplitAll]
    by_cases h : c = sep
    · simp [h]
    · rw [if_neg h]
      cases hr : pySplitAll sep rest with
      | nil => simp
      | cons p ps => simp

theorem pySplitAll_no_sep (sep : Char) (s : PyStr) (h : sep ∉ s) :
    pySplitAll sep s = [s] := by
  induction s with
  | nil => rfl
  | cons c cs ih =>
    have hc : c ≠ sep := fun hcc => h (hcc ▸ mem_cons_self c cs)
    have hcs : sep ∉ cs := fun hcc => h (mem_cons_of_mem c hcc)
    simp only [pySplitAll, if_neg hc, ih hcs]

theorem pySplitAll_append (sep : Char) (a b : PyStr) (ha : sep ∉ a) :
    pySplitAll sep (a ++ sep :: b) = a :: pySplitAll sep b := by
  induction a with
  | nil => simp [pySplitAll]
  | cons c cs ih =>
    have hc : c ≠ sep := fun h => ha (h ▸ mem_cons_self c cs)
    have hcs : sep ∉ cs := fun h => ha (mem_cons_of_mem c h)
    show pySplitAll sep (c :: (cs ++ sep :: b)) = (c :: cs) :: pySplitAll sep b
    simp only [pySplitAll, if_neg hc]
    rw [ih hcs]

/-- Splitting undoes joining for a non-empty list of separator-free parts. -/
theorem pySplitAll_pyJoin (sep : Char) (l : List PyStr) (hne : l ≠ [])
    (hfree : ∀ s ∈ l, sep ∉ s) : pySplitAll sep (pyJoin sep l) = l := by
  induction l with
  | nil => exact absurd rfl hne
  | cons s rest ih =>
    cases rest with
    | nil =>
      show pySplitAll sep s = [s]
      exact pySplitAll_no_sep sep s (hfree s (mem_cons_self s []))
    | cons t ts =>
      show pySplitAll sep (s ++ sep :: pyJoin sep (t :: ts)) = s :: t :: ts
      rw [pySplitAll_append sep s _ (hfree s (mem_cons_self s _))]
      rw [ih (by simp) (fun x hx => hfree x (mem_cons_of_mem s hx))]

/-! ## Association lists with Python dict update semantics -/

/-- Model of d[k] = v on a Python dict kept as an insertion-ordered
association list: an existing key keeps its position and gets the new value,
a new key is appended at the end. -/
def dictAssign [DecidableEq κ] (d : List (κ × β)) (k : κ) (v : β) : List (κ × β) :=
  if d.any (fun p => p.1 = k) then d.map (fun p => if p.1 = k then (k, v) else p)
  else d ++ [(k, v)]

/-- Model of d.get(k) / d[k] lookup on a Python dict. -/
def alookup [DecidableEq κ] (k : κ) : List (κ × β) → Option β
  | [] => none
  | p :: ps => if p.1 = k then some p.2 else alookup k ps

theorem dictAssign_of_not_mem [DecidableEq κ] (d : List (κ × β)) (k : κ) (v : β)
    (h : ∀ p ∈ d, p.1 ≠ k) : dictAssign d k v = d ++ [(k, v)] := by
  unfold dictAssign
  rw [if_neg]
  simp only [List.any_eq_true, decide_eq_true_eq, not_exists]
  intro p
  intro hcontra
  exact h p hcontra.1 hcontra.2

/-- Model of s.upper() (the converter only upper-cases ASCII sequence data,
where Python upper agrees with Char.toUpper). -/
def pyUpper (s : PyStr) : PyStr := s.map Char.toUpper

/-! ## Conversion constants of GenBank_SBOL3_Converter and of the sbol3 library -/

/-- Constant sbol3.SO_NS of the pysbol3 library. -/
def SO_NS : PyStr := pstr "https://identifiers.org/SO:"

/-- Constant sbol3.SO_FORWARD of the pysbol3 library. -/
def SO_FORWARD : PyStr := pstr "https://identifiers.org/SO:0001030"

/-- Constant sbol3.SO_REVERSE of the pysbol3 library. -/
def SO_REVERSE : PyStr := pstr "https://identifiers.org/SO:0001031"

/-- Class constant BIO_STRAND_FORWARD = 1. -/
def BIO_STRAND_FORWARD : Int := 1

/-- Class constant BIO_STRAND_REVERSE = -1. -/
def BIO_STRAND_REVERSE : Int := -1

/-- Class constant DEFAULT_GB_SEQ_VERSION = 1. -/
def DEFAULT_GB_SEQ_VERSION : Int := 1

/-- Class constant DEFAULT_SO_TERM = "SO:0000110". -/
def DEFAULT_SO_TERM : PyStr := pstr "SO:0000110"

/-- Class constant DEFAULT_GB_TERM = "misc_feature". -/
def DEFAULT_GB_TERM : PyStr := pstr "misc_feature"

/-! ## Location model

GenBank side (BioPython): a FeatureLocation has integer start and end and a
strand that is 1, -1, 0 or None (modelled as Option Int).  SBOL3 side: a
location is either a Cut (a single coordinate) or a Range, each carrying an
orientation URI string. -/

/-- A BioPython FeatureLocation as read from or written to a GenBank record. -/
structure GBLoc where
  start : Nat
  end_ : Nat
  strand : Option Int
deriving DecidableEq

/-- An SBOL3 location object: sbol3.Cut or sbol3.Range, with orientation. -/
inductive SbolLoc
  | cut (atPos : Nat) (orientation : PyStr)
  | range (start : Nat) (end_ : Nat) (orientation : PyStr)
deriving DecidableEq

/-- Whether an SBOL3 location is a Cut. -/
def SbolLoc.isCut : SbolLoc → Bool
  | .cut _ _ => true
  | .range _ _ _ => false

/-- Whether an SBOL3 location is a Range. -/
def SbolLoc.isRange : SbolLoc → Bool
  | .cut _ _ => false
  | .range _ _ _ => true

/-- Forward location conversion (convert_genbank_to_sbol3 lines 284-305, and
identically _store_extra_properties_in_sbol3 lines 578-586): orientation is
SO_FORWARD unless strand == -1; a zero-width location (start == end) becomes a
Cut at that coordinate, anything else becomes a Range. -/
def gbLocToSbol (start : Nat) (end_ : Nat) (strand : Option Int) : SbolLoc :=
  let orientation := if strand = some (-1) then SO_REVERSE else SO_FORWARD
  if start = end_ then SbolLoc.cut start orientation
  else SbolLoc.range start end_ orientation

/-! ## Reverse location conversion (convert_sbol3_to_genbank lines 430-462)

The reverse path reads .start and .end off each sbol3 location, so it is
modelled on Range data (SRange); it derives a BioPython strand from the
orientation, raising ValueError for an orientation that is neither SO_FORWARD
nor SO_REVERSE. -/

/-- An sbol3 Range as seen by the reverse converter: .start, .end and
.orientation attributes. -/
structure SRange where
  start : Nat
  end_ : Nat
  orientation : PyStr
deriving DecidableEq

/-- The BioPython location object built on the reverse path: either a single
FeatureLocation or a CompoundLocation with an operator ("join"); None when the
feature has no locations at all (feat_loc_object is left None). -/
inductive BioLocObj
  | none_
  | single (loc : GBLoc)
  | compound (parts : List GBLoc) (operator : PyStr)
deriving DecidableEq

/-- The parts list of the emitted location object. -/
def BioLocObj.emittedParts : BioLocObj → List GBLoc
  | .none_ => []
  | .single loc => [loc]
  | .compound parts _ => parts

/-- Loop body of lines 434-450: convert each sbol3 feature location to a
FeatureLocation, raising ValueError on an orientation that is neither
SO_REVERSE nor SO_FORWARD. -/
def convertLocParts : List SRange → Except String (List GBLoc)
  | [] => .ok []
  | l :: rest =>
    if l.orientation = SO_REVERSE then
      (convertLocParts rest).map (fun parts => ⟨l.start, l.end_, some BIO_STRAND_REVERSE⟩ :: parts)
    else if l.orientation = SO_FORWARD then
      (convertLocParts rest).map (fun parts => ⟨l.start, l.end_, some BIO_STRAND_FORWARD⟩ :: parts)
    else .error "ValueError: location orientation is not a valid orientation"

/-- Strand left in feat_strand after the location loop: the strand of the
last converted location, or BIO_STRAND_FORWARD if there was none. -/
def lastStrand (parts : List GBLoc) : Int :=
  match parts.getLast? with
  | some p => p.strand.getD BIO_STRAND_FORWARD
  | none => BIO_STRAND_FORWARD

/-- Lexicographic comparison of the Python sort key (loc.start, loc.end). -/
def locPairLe (a b : GBLoc) : Bool :=
  a.start < b.start ∨ (a.start = b.start ∧ a.end_ ≤ b.end_)

/-- Reverse conversion of one feature location list (lines 430-462): convert
each location, sort ascending by (start, end) — descending when the feature
orientation is SO_REVERSE — flatten the coordinates into the feature sort key,
and wrap two or more parts in a "join" CompoundLocation.  Returns the
location object, the flattened coordinate key and the final feat_strand. -/
def convertFeatureLocations (locs : List SRange) (featOrient : PyStr) :
    Except String (BioLocObj × List Nat × Int) :=
  (convertLocParts locs).map fun parts =>
    let sorted := if featOrient = SO_REVERSE then pySortBy (fun a b => locPairLe b a) parts
                  else pySortBy locPairLe parts
    let positions := sorted.foldl (fun acc l => acc ++ [l.start, l.end_]) []
    let obj : BioLocObj :=
      if sorted.length > 1 then .compound sorted (pstr "join")
      else
        match sorted with
        | [p] => .single p
        | _ => .none_
    (obj, positions, lastStrand parts)

/-- Reverse conversion of the locations of a CustomReferenceProperty
(_reset_extra_properties_in_genbank lines 652-668).  The ValueError branch for
an invalid orientation is commented out in the source, so any orientation
other than SO_REVERSE silently becomes a forward strand; reading .start and
.end off a Cut raises AttributeError. -/
def convertCustomRefLoc : SbolLoc → Except String GBLoc
  | .range s e o =>
    .ok ⟨s, e, some (if o = SO_REVERSE then BIO_STRAND_REVERSE else BIO_STRAND_FORWARD)⟩
  | .cut _ _ => .error "AttributeError: Cut object has no attribute start"

/-- Reverse conversion of a whole reference location list. -/
def convertCustomRefLocs : List SbolLoc → Except String (List GBLoc)
  | [] => .ok []
  | l :: rest =>
    match convertCustomRefLoc l with
    | .ok g => (convertCustomRefLocs rest).map (fun gs => g :: gs)
    | .error e => .error e

/-! ## Ontology role resolution (the gb2so / so2gb mapping tables)

The mapping tables are loaded from external CSV data files; they are modelled
as abstract finite lookups PyStr → Option PyStr (dict.get). -/

/-- Forward role lookup (convert_genbank_to_sbol3 lines 306-313): start from
SO_NS[:-3], then append the mapped term if the dict lookup is truthy, else
warn and append DEFAULT_SO_TERM.  Returns the role and whether the fallback
warning fired. -/
def gb2soResolveRole (gb2so : PyStr → Option PyStr) (featType : PyStr) : PyStr × Bool :=
  let base := SO_NS.take (SO_NS.length - 3)
  match gb2so featType with
  | some v => if v ≠ [] then (base ++ v, false) else (base ++ DEFAULT_SO_TERM, true)
  | none => (base ++ DEFAULT_SO_TERM, true)

/-- Model of s.index(c, start): the first index at or after start holding c;
Python raises ValueError when there is none. -/
def pyIndexFrom (s : PyStr) (c : Char) (start : Nat) : Option Nat :=
  ((s.drop start).findIdx? (fun x => x = c)).map (fun i => i + start)

/-- Reverse role lookup (convert_sbol3_to_genbank lines 467-480): slice the
role URI down to its SO:xxxxxxx short form via role[role.index(":", 6) - 2:],
then look it up in so2gb; a miss keeps DEFAULT_GB_TERM and warns.  Returns the
GenBank term and whether the fallback warning fired. -/
def so2gbResolveRole (so2gb : PyStr → Option PyStr) (roleURI : PyStr) :
    Except String (PyStr × Bool) :=
  match pyIndexFrom roleURI ':' 6 with
  | none => .error "ValueError: substring not found"
  | some idx =>
    let short := roleURI.drop (idx - 2)
    match so2gb short with
    | some v => if v ≠ [] then .ok (v, false) else .ok (DEFAULT_GB_TERM, true)
    | none => .ok (DEFAULT_GB_TERM, true)

/-! ## Feature qualifiers (Feature_GenBank_Extension qualifier_key / qualifier_value)

The forward converter copies each qualifier (key, value) pair into two SBOL3
text-list properties, prefixing both strings with the zero-based position
index and ":" (convert_genbank_to_sbol3 lines 325-328).  The reverse converter
parses the numeric prefix back off, sorts both lists by it, and re-zips them
into the BioPython qualifier dict (convert_sbol3_to_genbank lines 488-495). -/

/-- One GenBank feature as delivered by BioPython: a type, a strand, an
insertion-ordered qualifier dict mapping each key to a list of values, and
location parts. -/
structure GBFeature where
  type_ : PyStr
  strand : Option Int
  qualifiers : List (PyStr × List PyStr)
  locationParts : List GBLoc

/-- The SBOL3 feature object built by the forward converter
(Feature_GenBank_Extension). -/
structure SbolFeature where
  name : PyStr
  roles : List PyStr
  orientation : PyStr
  locations : List SbolLoc
  qualifier_key : List PyStr
  qualifier_value : List PyStr

/-- Loop of lines 325-328 (keys): for index ind and qualifier key k the stored
string is str(ind) + ":" + k. -/
def canonQualKeys (i : Nat) : List (PyStr × List PyStr) → List PyStr
  | [] => []
  | (k, _) :: rest => (natDigits i ++ ':' :: k) :: canonQualKeys (i + 1) rest

/-- Loop of lines 325-328 (values): the stored string is
str(ind) + ":" + qualifiers[k][0]. -/
def canonQualVals (i : Nat) : List (PyStr × List PyStr) → List PyStr
  | [] => []
  | (_, vs) :: rest => (natDigits i ++ ':' :: vs.headD []) :: canonQualVals (i + 1) rest

/-- The qualifier storing loop of convert_genbank_to_sbol3 lines 325-328,
from position index i: prefix key and first value with the index; the [0]
access on an empty value list raises IndexError. -/
def storeQualsFrom (i : Nat) : List (PyStr × List PyStr) →
    Except String (List PyStr × List PyStr)
  | [] => .ok ([], [])
  | (k, vs) :: rest =>
    match vs with
    | [] => .error "IndexError: list index out of range"
    | v :: _ =>
      match storeQualsFrom (i + 1) rest with
      | .ok (ks, vls) => .ok ((natDigits i ++ ':' :: k) :: ks, (natDigits i ++ ':' :: v) :: vls)
      | .error e => .error e

/-- Qualifier storage for a whole feature (enumerate starts at 0). -/
def storeQualifiers (quals : List (PyStr × List PyStr)) :
    Except String (List PyStr × List PyStr) :=
  storeQualsFrom 0 quals

/-- Model of int(x.split(":", 1)[0]) as used by the reverse sort key: parse
the text before the first colon, or the whole string when there is no colon,
as a decimal number.  `none` models a Python ValueError. -/
def pyQualIdx? (s : PyStr) : Option Nat :=
  match pySplitFirst ':' s with
  | some (pre, _) => parseDigits? pre
  | none => parseDigits? s

/-- Total sort key used once every entry has been checked to parse; the
default branch is never reached on checked input. -/
def qualSortKey (s : PyStr) : Nat := (pyQualIdx? s).getD 0

/-- The re-zipping loop of lines 494-495: walk the two sorted lists in step,
strip the index prefix off both strings with split(":", 1)[1], and assign into
the feature qualifier dict.  A missing colon or a too-short value list raises
IndexError. -/
def buildQualDict : List PyStr → List PyStr → List (PyStr × PyStr) →
    Except String (List (PyStr × PyStr))
  | [], _, d => .ok d
  | k :: ks, v :: vs, d =>
    match pySplitFirst ':' k, pySplitFirst ':' v with
    | some (_, ksuf), some (_, vsuf) => buildQualDict ks vs (dictAssign d ksuf vsuf)
    | _, _ => .error "IndexError: list index out of range"
  | _ :: _, [], _ => .error "IndexError: list index out of range"

/-- Reverse qualifier restoration (convert_sbol3_to_genbank lines 488-495):
sort both stored lists by the numeric index prefix (the sort raises ValueError
if any prefix does not parse as an int) and re-zip them into the qualifier
dict. -/
def reverseQualifiers (qkeys qvals : List PyStr) :
    Except String (List (PyStr × PyStr)) :=
  if (qkeys.all fun k => (pyQualIdx? k).isSome) = true then
    if (qvals.all fun v => (pyQualIdx? v).isSome) = true then
      buildQualDict (pySortBy (fun a b => qualSortKey a ≤ qualSortKey b) qkeys)
        (pySortBy (fun a b => qualSortKey a ≤ qualSortKey b) qvals) []
    else .error "ValueError: invalid literal for int"
  else .error "ValueError: invalid literal for int"

/-- Forward conversion of one GenBank feature (convert_genbank_to_sbol3 lines
279-338): the name is qualifiers["label"][0] — an unguarded dict access that
raises KeyError when the label qualifier is missing (lines 282 and 322) and
IndexError when its value list is empty; locations are converted with the
point/range rule; the role comes from the gb2so table with warning fallback;
qualifiers are stored with index prefixes. -/
def convertFeatureForward (gb2so : PyStr → Option PyStr) (f : GBFeature) :
    Except String SbolFeature :=
  match alookup (pstr "label") f.qualifiers with
  | none => .error "KeyError: label"
  | some [] => .error "IndexError: list index out of range"
  | some (label :: _) =>
    let locs := f.locationParts.map (fun l => gbLocToSbol l.start l.end_ l.strand)
    let role := (gb2soResolveRole gb2so f.type_).1
    let orient := if f.strand = some (-1) then SO_REVERSE else SO_FORWARD
    match storeQualifiers f.qualifiers with
    | .ok (ks, vs) =>
      .ok { name := label, roles := [role], orientation := orient,
            locations := locs, qualifier_key := ks, qualifier_value := vs }
    | .error e => .error e

/-- The feature loop of the forward converter: features are converted in
order and the first exception aborts the whole conversion. -/
def convertFeaturesForward (gb2so : PyStr → Option PyStr) :
    List GBFeature → Except String (List SbolFeature)
  | [] => .ok []
  | f :: fs =>
    match convertFeatureForward gb2so f with
    | .ok sf => (convertFeaturesForward gb2so fs).map (fun rest => sf :: rest)
    | .error e => .error e

/-! ## Lemmas about the index-prefixed qualifier encoding -/

theorem storeQualsFrom_eq (quals : List (PyStr × List PyStr)) : ∀ (i : Nat),
    (∀ p ∈ quals, p.2 ≠ []) →
    storeQualsFrom i quals = .ok (canonQualKeys i quals, canonQualVals i quals) := by
  induction quals with
  | nil => intro i _; rfl
  | cons p rest ih =>
    intro i h
    obtain ⟨k, vs⟩ := p
    have hne : vs ≠ [] := h (k, vs) (mem_cons_self _ _)
    cases vs with
    | nil => exact absurd rfl hne
    | cons v vt =>
      simp only [storeQualsFrom]
      rw [ih (i + 1) (fun q hq => h q (mem_cons_of_mem _ hq))]
      rfl

theorem pyQualIdx_encode (j : Nat) (s : PyStr) :
    pyQualIdx? (natDigits j ++ ':' :: s) = some j := by
  unfold pyQualIdx?
  rw [pySplitFirst_append ':' (natDigits j) s (natDigits_ne_colon j)]
  exact parseDigits_natDigits j

theorem qualSortKey_encode (j : Nat) (s : PyStr) :
    qualSortKey (natDigits j ++ ':' :: s) = j := by
  unfold qualSortKey
  rw [pyQualIdx_encode]
  rfl

theorem canonQualKeys_key_ge (quals : List (PyStr × List PyStr)) : ∀ (i : Nat),
    ∀ s ∈ canonQualKeys i quals, i ≤ qualSortKey s := by
  induction quals with
  | nil => intro i s hs; simp [canonQualKeys] at hs
  | cons p rest ih =>
    intro i s hs
    obtain ⟨k, vs⟩ := p
    rcases mem_cons.1 hs with rfl | hs
    · rw [qualSortKey_encode]
    · exact le_trans (Nat.le_succ i) (ih (i + 1) s hs)

theorem canonQualVals_key_ge (quals : List (PyStr × List PyStr)) : ∀ (i : Nat),
    ∀ s ∈ canonQualVals i quals, i ≤ qualSortKey s := by
  induction quals with
  | nil => intro i s hs; simp [canonQualVals] at hs
  | cons p rest ih =>
    intro i s hs
    obtain ⟨k, vs⟩ := p
    rcases mem_cons.1 hs with rfl | hs
    · rw [qualSortKey_encode]
    · exact le_trans (Nat.le_succ i) (ih (i + 1) s hs)

theorem canonQualKeys_strict (quals : List (PyStr × List PyStr)) : ∀ (i : Nat),
    (canonQualKeys i quals).Pairwise fun a b => qualSortKey a < qualSortKey b := by
  induction quals with
  | nil => intro i; simp [canonQualKeys]
  | cons p rest ih =>
    intro i
    obtain ⟨k, vs⟩ := p
    refine pairwise_cons.2 ⟨?_, ih (i + 1)⟩
    intro s hs
    rw [qualSortKey_encode]
    exact lt_of_lt_of_le (Nat.lt_succ_self i) (canonQualKeys_key_ge rest (i + 1) s hs)

theorem canonQualVals_strict (quals : List (PyStr × List PyStr)) : ∀ (i : Nat),
    (canonQualVals i quals).Pairwise fun a b => qualSortKey a < qualSortKey b := by
  induction quals with
  | nil => intro i; simp [canonQualVals]
  | cons p rest ih =>
    intro i
    obtain ⟨k, vs⟩ := p
    refine pairwise_cons.2 ⟨?_, ih (i + 1)⟩
    intro s hs
    rw [qualSortKey_encode]
    exact lt_of_lt_of_le (Nat.lt_succ_self i) (canonQualVals_key_ge rest (i + 1) s hs)

theorem canonQualKeys_isSome (quals : List (PyStr × List PyStr)) : ∀ (i : Nat),
    ∀ s ∈ canonQualKeys i quals, (pyQualIdx? s).isSome = true := by
  induction quals with
  | nil => intro i s hs; simp [canonQualKeys] at hs
  | cons p rest ih =>
    intro i s hs
    obtain ⟨k, vs⟩ := p
    rcases mem_cons.1 hs with rfl | hs
    · rw [pyQualIdx_encode]; rfl
    · exact ih (i + 1) s hs

theorem canonQualVals_isSome (quals : List (PyStr × List PyStr)) : ∀ (i : Nat),
    ∀ s ∈ canonQualVals i quals, (pyQualIdx? s).isSome = true := by
  induction quals with
  | nil => intro i s hs; simp [canonQualVals] at hs
  | cons p rest ih =>
    intro i s hs
    obtain ⟨k, vs⟩ := p
    rcases mem_cons.1 hs with rfl | hs
    · rw [pyQualIdx_encode]; rfl
    · exact ih (i + 1) s hs

theorem buildQualDict_canon (quals : List (PyStr × List PyStr)) : ∀ (i : Nat)
    (d : List (PyStr × PyStr)), (quals.map Prod.fst).Nodup →
    (∀ p ∈ d, p.1 ∉ quals.map Prod.fst) →
    buildQualDict (canonQualKeys i quals) (canonQualVals i quals) d
      = .ok (d ++ quals.map fun p => (p.1, p.2.headD [])) := by
  induction quals with
  | nil =>
    intro i d _ _
    simp [canonQualKeys, canonQualVals, buildQualDict]
  | cons p rest ih =>
    intro i d hnd hdisj
    obtain ⟨k, vs⟩ := p
    simp only [canonQualKeys, canonQualVals, buildQualDict]
    rw [pySplitFirst_append ':' (natDigits i) k (natDigits_ne_colon i)]
    rw [pySplitFirst_append ':' (natDigits i) (vs.headD []) (natDigits_ne_colon i)]
    show buildQualDict (canonQualKeys (i + 1) rest) (canonQualVals (i + 1) rest)
        (dictAssign d k (vs.headD [])) = _
    have hknotin : ∀ q ∈ d, q.1 ≠ k := by
      intro q hq hc
      have := hdisj q hq
      simp only [map_cons, mem_cons] at this
      exact this (Or.inl hc)
    rw [dictAssign_of_not_mem d k _ hknotin]
    have hnd2 : (rest.map Prod.fst).Nodup := by
      simp only [map_cons, nodup_cons] at hnd
      exact hnd.2
    have hknotrest : k ∉ rest.map Prod.fst := by
      simp only [map_cons, nodup_cons] at hnd
      exact hnd.1
    have hdisj2 : ∀ q ∈ d ++ [(k, vs.headD [])], q.1 ∉ rest.map Prod.fst := by
      intro q hq
      rcases mem_append.1 hq with hq | hq
      · have := hdisj q hq
        simp only [map_cons, mem_cons] at this
        exact fun hc => this (Or.inr hc)
      · rcases mem_singleton.1 hq with rfl
        exact hknotrest
    rw [ih (i + 1) (d ++ [(k, vs.headD [])]) hnd2 hdisj2]
    simp

/-! ## Helper lemmas for feature conversion errors -/

theorem alookup_eq_none_iff [DecidableEq κ] (k : κ) (d : List (κ × β)) :
    alookup k d = none ↔ k ∉ d.map Prod.fst := by
  induction d with
  | nil => simp [alookup]
  | cons p ps ih =>
    simp only [alookup, map_cons, mem_cons]
    by_cases h : p.1 = k
    · simp [h]
    · rw [if_neg h, ih]
      constructor
      · intro hn hc
        rcases hc with hc | hc
        · exact h hc.symm
        · exact hn hc
      · intro hn hc
        exact hn (Or.inr hc)

theorem convertFeatureForward_no_label (gb2so : PyStr → Option PyStr) (f : GBFeature)
    (h : pstr "label" ∉ f.qualifiers.map Prod.fst) :
    convertFeatureForward gb2so f = .error "KeyError: label" := by
  unfold convertFeatureForward
  rw [(alookup_eq_none_iff (pstr "label") f.qualifiers).2 h]

theorem convertFeaturesForward_error_of_mem (gb2so : PyStr → Option PyStr)
    (fs : List GBFeature) (f : GBFeature) (hf : f ∈ fs)
    (herr : ∃ e, convertFeatureForward gb2so f = .error e) :
    ∃ e, convertFeaturesForward gb2so fs = .error e := by
  induction fs with
  | nil => simp at hf
  | cons g gs ih =>
    rcases mem_cons.1 hf with rfl | hf
    · obtain ⟨e, he⟩ := herr
      exact ⟨e, by simp [convertFeaturesForward, he]⟩
    · cases hg : convertFeatureForward gb2so g with
      | error e => exact ⟨e, by simp [convertFeaturesForward, hg]⟩
      | ok sf =>
        obtain ⟨e, he⟩ := ih hf
        refine ⟨e, ?_⟩
        simp only [convertFeaturesForward, hg, he]
        rfl

/-! ## Claim theorems: C2, C3, C6, C10 -/

/-- Claim C2: for every feature with an ordered list of qualifier (key, value)
pairs, the forward conversion stores each key and value with a zero-based
index prefix and ":" separator, and the reverse conversion strips the
prefixes, sorts by the numeric index and re-zips, so the feature emerges from
a forward-then-reverse conversion with the same qualifier pairs in the same
relative order even when the intermediate storage lists arrive in arbitrary
order (any permutation of the stored strings). -/
theorem C2_qualifier_order_roundtrip (quals : List (PyStr × List PyStr))
    (hvals : ∀ p ∈ quals, p.2 ≠ [])
    (hnd : (quals.map Prod.fst).Nodup)
    (qkeys qvals : List PyStr)
    (hk : qkeys ~ canonQualKeys 0 quals)
    (hv : qvals ~ canonQualVals 0 quals) :
    storeQualifiers quals = .ok (canonQualKeys 0 quals, canonQualVals 0 quals) ∧
    reverseQualifiers qkeys qvals = .ok (quals.map fun p => (p.1, p.2.headD [])) := by
  refine ⟨storeQualsFrom_eq quals 0 hvals, ?_⟩
  unfold reverseQualifiers
  have hks : (qkeys.all fun k => (pyQualIdx? k).isSome) = true := by
    rw [all_eq_true]
    intro k hkm
    exact canonQualKeys_isSome quals 0 k (hk.subset hkm)
  have hvs : (qvals.all fun v => (pyQualIdx? v).isSome) = true := by
    rw [all_eq_true]
    intro v hvm
    exact canonQualVals_isSome quals 0 v (hv.subset hvm)
  rw [if_pos hks, if_pos hvs]
  rw [pySortBy_perm_of_strict qualSortKey (canonQualKeys 0 quals) qkeys hk
    (canonQualKeys_strict quals 0)]
  rw [pySortBy_perm_of_strict qualSortKey (canonQualVals 0 quals) qvals hv
    (canonQualVals_strict quals 0)]
  rw [buildQualDict_canon quals 0 [] hnd (by intro p hp; simp at hp)]
  simp

/-- Witness for C2 at the qualifier list [("label","X"), ("note","Y")] of the
spec, with the stored lists arriving in reversed (permuted) order. -/
theorem C2_qualifier_order_roundtrip_witness :
    reverseQualifiers [pstr "1:note", pstr "0:label"] [pstr "1:Y", pstr "0:X"]
      = .ok [(pstr "label", pstr "X"), (pstr "note", pstr "Y")] :=
  (C2_qualifier_order_roundtrip
    [(pstr "label", [pstr "X"]), (pstr "note", [pstr "Y"])]
    (by decide) (by decide)
    [pstr "1:note", pstr "0:label"] [pstr "1:Y", pstr "0:X"]
    (by decide) (by decide)).2

/-- Claim C3: on the forward path a location becomes a point (Cut) if and only
if its flat-side start equals its end, and a Range otherwise; the equality is
the sole discriminator, for any strand value. -/
theorem C3_location_point_discriminator (start end_ : Nat) (strand : Option Int) :
    ((gbLocToSbol start end_ strand).isCut = true ↔ start = end_) ∧
    ((gbLocToSbol start end_ strand).isRange = true ↔ start ≠ end_) ∧
    (start = end_ → gbLocToSbol start end_ strand =
      SbolLoc.cut start (if strand = some (-1) then SO_REVERSE else SO_FORWARD)) ∧
    (start ≠ end_ → gbLocToSbol start end_ strand =
      SbolLoc.range start end_ (if strand = some (-1) then SO_REVERSE else SO_FORWARD)) := by
  unfold gbLocToSbol
  by_cases h : start = end_
  · simp [h, SbolLoc.isCut, SbolLoc.isRange]
  · simp [h, SbolLoc.isCut, SbolLoc.isRange]

/-- Witness for C3 at a zero-width location (5, 5) and a proper range (3, 8). -/
theorem C3_location_point_discriminator_witness :
    ((gbLocToSbol 5 5 (some 1)).isCut = true ↔ (5 : Nat) = 5) ∧
    (gbLocToSbol 3 8 (some (-1)) =
      SbolLoc.range 3 8 (if (some (-1) : Option Int) = some (-1) then SO_REVERSE else SO_FORWARD)) :=
  ⟨(C3_location_point_discriminator 5 5 (some 1)).1,
   (C3_location_point_discriminator 3 8 (some (-1))).2.2.2 (by decide)⟩

/-- Claim C6: a feature type absent from the gb2so mapping resolves to the
default SO term (SO:0000110, full URI https://identifiers.org/SO:0000110) with
a warning and no error; a role short form absent from the so2gb mapping
resolves to the default GenBank term misc_feature with a warning and no error
(once the URI slice role[role.index(":", 6) - 2:] succeeds). -/
theorem C6_ontology_fallback (gb2so so2gb : PyStr → Option PyStr)
    (featType roleURI : PyStr) (idx : Nat) :
    (gb2so featType = none →
      gb2soResolveRole gb2so featType = (pstr "https://identifiers.org/SO:0000110", true)) ∧
    (pyIndexFrom roleURI ':' 6 = some idx → so2gb (roleURI.drop (idx - 2)) = none →
      so2gbResolveRole so2gb roleURI = .ok (DEFAULT_GB_TERM, true)) := by
  constructor
  · intro hmiss
    unfold gb2soResolveRole
    rw [hmiss]
    decide
  · intro hidx hmiss
    unfold so2gbResolveRole
    rw [hidx]
    show (match so2gb (roleURI.drop (idx - 2)) with
      | some v => if v ≠ [] then Except.ok (v, false) else Except.ok (DEFAULT_GB_TERM, true)
      | none => Except.ok (DEFAULT_GB_TERM, true)) = Except.ok (DEFAULT_GB_TERM, true)
    rw [hmiss]

/-- Witness for C6 at the unmapped flat type "xyz123" of the spec and an
SO role URI whose short form is unmapped. -/
theorem C6_ontology_fallback_witness :
    gb2soResolveRole (fun _ => none) (pstr "xyz123")
      = (pstr "https://identifiers.org/SO:0000110", true) ∧
    so2gbResolveRole (fun _ => none) (pstr "https://identifiers.org/SO:0000316")
      = .ok (DEFAULT_GB_TERM, true) :=
  ⟨(C6_ontology_fallback (fun _ => none) (fun _ => none)
      (pstr "xyz123") (pstr "https://identifiers.org/SO:0000316") 26).1 rfl,
   (C6_ontology_fallback (fun _ => none) (fun _ => none)
      (pstr "xyz123") (pstr "https://identifiers.org/SO:0000316") 26).2 (by decide) rfl⟩

/-- Claim C10: the forward conversion reads qualifiers["label"][0] unguarded,
so a feature without a label qualifier raises KeyError and any record (feature
list) containing such a feature fails to convert. -/
theorem C10_label_required (gb2so : PyStr → Option PyStr) (fs : List GBFeature)
    (f : GBFeature) (hf : f ∈ fs)
    (hnolabel : pstr "label" ∉ f.qualifiers.map Prod.fst) :
    convertFeatureForward gb2so f = .error "KeyError: label" ∧
    ∃ e, convertFeaturesForward gb2so fs = .error e := by
  have hferr := convertFeatureForward_no_label gb2so f hnolabel
  exact ⟨hferr, convertFeaturesForward_error_of_mem gb2so fs f hf ⟨_, hferr⟩⟩

/-- Witness for C10 at a record with one feature carrying only a note
qualifier and no label. -/
theorem C10_label_required_witness :
    convertFeatureForward (fun _ => none)
      ⟨pstr "gene", some 1, [(pstr "note", [pstr "N"])], [⟨0, 5, some 1⟩]⟩
      = .error "KeyError: label" ∧
    ∃ e, convertFeaturesForward (fun _ => none)
      [⟨pstr "gene", some 1, [(pstr "note", [pstr "N"])], [⟨0, 5, some 1⟩]⟩]
      = .error e :=
  C10_label_required (fun _ => none) _ _ (mem_cons_self _ _) (by decide)

/-! ## Lemmas for the reverse location conversion -/

/-- The FeatureLocation produced for one valid sbol3 location on the reverse
path. -/
def locToBio (l : SRange) : GBLoc :=
  ⟨l.start, l.end_, some (if l.orientation = SO_REVERSE then BIO_STRAND_REVERSE
    else BIO_STRAND_FORWARD)⟩

theorem convertLocParts_ok (locs : List SRange)
    (h : ∀ l ∈ locs, l.orientation = SO_FORWARD ∨ l.orientation = SO_REVERSE) :
    convertLocParts locs = .ok (locs.map locToBio) := by
  induction locs with
  | nil => rfl
  | cons l rest ih =>
    have hrest := ih (fun x hx => h x (mem_cons_of_mem l hx))
    unfold convertLocParts
    rcases h l (mem_cons_self l rest) with hf | hr
    · have hne : ¬ l.orientation = SO_REVERSE := by
        rw [hf]; decide
      rw [if_neg hne, if_pos hf, hrest]
      simp [locToBio, Except.map, hne]
    · rw [if_pos hr, hrest]
      simp [locToBio, Except.map, hr]

theorem convertLocParts_error_of_invalid (locs : List SRange)
    (h : ∃ l ∈ locs, l.orientation ≠ SO_FORWARD ∧ l.orientation ≠ SO_REVERSE) :
    ∃ e, convertLocParts locs = .error e := by
  induction locs with
  | nil => simp at h
  | cons l rest ih =>
    obtain ⟨l0, hl0mem, hl0⟩ := h
    rcases mem_cons.1 hl0mem with rfl | hl0mem
    · exact ⟨_, by unfold convertLocParts; rw [if_neg hl0.2, if_neg hl0.1]⟩
    · unfold convertLocParts
      by_cases h1 : l.orientation = SO_REVERSE
      · obtain ⟨e, he⟩ := ih ⟨l0, hl0mem, hl0⟩
        rw [if_pos h1, he]
        exact ⟨e, rfl⟩
      · rw [if_neg h1]
        by_cases h2 : l.orientation = SO_FORWARD
        · obtain ⟨e, he⟩ := ih ⟨l0, hl0mem, hl0⟩
          rw [if_pos h2, he]
          exact ⟨e, rfl⟩
        · rw [if_neg h2]
          exact ⟨_, rfl⟩

theorem locPairLe_total (a b : GBLoc) : locPairLe a b = true ∨ locPairLe b a = true := by
  simp only [locPairLe, decide_eq_true_eq]
  omega

theorem locPairLe_trans (a b c : GBLoc) (h1 : locPairLe a b = true)
    (h2 : locPairLe b c = true) : locPairLe a c = true := by
  simp only [locPairLe, decide_eq_true_eq] at h1 h2 ⊢
  omega

theorem emittedParts_build (s : List GBLoc) (op : PyStr) :
    (if s.length > 1 then BioLocObj.compound s op
     else match s with
          | [p] => BioLocObj.single p
          | _ => BioLocObj.none_).emittedParts = s := by
  match s with
  | [] => rfl
  | [p] => rfl
  | p :: q :: rest =>
    have hlen : (p :: q :: rest).length > 1 := by simp
    rw [if_pos hlen]
    rfl

/-! ## Claim theorems: C4 and C8 -/

/-- Claim C4: on the reverse path the emitted interval parts of a feature are
sorted ascending by (start, end) for a forward feature and descending for a
reverse feature; one location is emitted without a compound wrapper, two or
more are wrapped in a "join" CompoundLocation.  In particular segments
(10,20),(30,40) emit as 10..20 then 30..40 forward and as 30..40 then 10..20
reverse. -/
theorem C4_compound_location_ordering :
    (∀ (locs : List SRange) (featOrient : PyStr),
      (∀ l ∈ locs, l.orientation = SO_FORWARD ∨ l.orientation = SO_REVERSE) →
      ∃ obj positions strand,
        convertFeatureLocations locs featOrient = .ok (obj, positions, strand) ∧
        obj.emittedParts ~ locs.map locToBio ∧
        (featOrient = SO_REVERSE →
          obj.emittedParts.Pairwise fun a b => locPairLe b a = true) ∧
        (featOrient ≠ SO_REVERSE →
          obj.emittedParts.Pairwise fun a b => locPairLe a b = true) ∧
        ((∃ parts, obj = BioLocObj.compound parts (pstr "join")) ↔ 1 < locs.length) ∧
        ((∃ p, obj = BioLocObj.single p) ↔ locs.length = 1)) ∧
    convertFeatureLocations [⟨10, 20, SO_FORWARD⟩, ⟨30, 40, SO_FORWARD⟩] SO_FORWARD
      = .ok (.compound [⟨10, 20, some 1⟩, ⟨30, 40, some 1⟩] (pstr "join"),
             [10, 20, 30, 40], 1) ∧
    convertFeatureLocations [⟨10, 20, SO_REVERSE⟩, ⟨30, 40, SO_REVERSE⟩] SO_REVERSE
      = .ok (.compound [⟨30, 40, some (-1)⟩, ⟨10, 20, some (-1)⟩] (pstr "join"),
             [30, 40, 10, 20], -1) := by
  refine ⟨?_, rfl, rfl⟩
  intro locs featOrient h
  unfold convertFeatureLocations
  rw [convertLocParts_ok locs h]
  have hlen : (if featOrient = SO_REVERSE
      then pySortBy (fun a b => locPairLe b a) (locs.map locToBio)
      else pySortBy locPairLe (locs.map locToBio)).length = locs.length := by
    by_cases hrev : featOrient = SO_REVERSE
    · rw [if_pos hrev, (pySortBy_perm _ _).length_eq, length_map]
    · rw [if_neg hrev, (pySortBy_perm _ _).length_eq, length_map]
  refine ⟨_, _, _, rfl, ?_, ?_, ?_, ?_, ?_⟩
  · rw [emittedParts_build]
    by_cases hrev : featOrient = SO_REVERSE
    · rw [if_pos hrev]
      exact pySortBy_perm _ _
    · rw [if_neg hrev]
      exact pySortBy_perm _ _
  · intro hrev
    rw [emittedParts_build, if_pos hrev]
    exact pySortBy_pairwise _ (fun a b => locPairLe_total b a)
      (fun a b c h1 h2 => locPairLe_trans c b a h2 h1) _
  · intro hrev
    rw [emittedParts_build, if_neg hrev]
    exact pySortBy_pairwise _ locPairLe_total locPairLe_trans _
  · rw [← hlen]
    generalize (if featOrient = SO_REVERSE
        then pySortBy (fun a b => locPairLe b a) (locs.map locToBio)
        else pySortBy locPairLe (locs.map locToBio)) = s
    match s with
    | [] => simp
    | [p] => simp
    | p :: q :: rest =>
      have hl : (p :: q :: rest).length > 1 := by simp
      rw [if_pos hl]
      exact iff_of_true ⟨p :: q :: rest, rfl⟩ (by simp)
  · rw [← hlen]
    generalize (if featOrient = SO_REVERSE
        then pySortBy (fun a b => locPairLe b a) (locs.map locToBio)
        else pySortBy locPairLe (locs.map locToBio)) = s
    match s with
    | [] => simp
    | [p] =>
      have hl : ¬ ([p] : List GBLoc).length > 1 := by simp
      rw [if_neg hl]
      exact iff_of_true ⟨p, rfl⟩ rfl
    | p :: q :: rest =>
      have hl : (p :: q :: rest).length > 1 := by simp
      rw [if_pos hl]
      simp

/-- Witness for C4 at a one-location forward feature, discharging the validity
hypothesis. -/
theorem C4_compound_location_ordering_witness :
    ∃ obj positions strand,
      convertFeatureLocations [⟨3, 7, SO_FORWARD⟩] SO_FORWARD
        = .ok (obj, positions, strand) ∧
      obj.emittedParts ~ [⟨3, 7, SO_FORWARD⟩].map locToBio ∧
      (SO_FORWARD = SO_REVERSE →
        obj.emittedParts.Pairwise fun a b => locPairLe b a = true) ∧
      (SO_FORWARD ≠ SO_REVERSE →
        obj.emittedParts.Pairwise fun a b => locPairLe a b = true) ∧
      ((∃ parts, obj = BioLocObj.compound parts (pstr "join")) ↔
        1 < ([⟨3, 7, SO_FORWARD⟩] : List SRange).length) ∧
      ((∃ p, obj = BioLocObj.single p) ↔ ([⟨3, 7, SO_FORWARD⟩] : List SRange).length = 1) :=
  C4_compound_location_ordering.1 [⟨3, 7, SO_FORWARD⟩] SO_FORWARD (by decide)

/-- Counterexample to claim C8: on the reverse path, a reference (citation)
location whose orientation is neither canonical value does not raise the
claimed fatal ValueError — the raise is commented out in the source — and is
silently converted with a forward strand. -/
theorem C8_counterexample :
    convertCustomRefLocs [SbolLoc.range 5 10 (pstr "junk")] = .ok [⟨5, 10, some 1⟩] ∧
    ∀ e, convertCustomRefLocs [SbolLoc.range 5 10 (pstr "junk")] ≠ .error e := by
  constructor
  · rfl
  · intro e h
    rw [show convertCustomRefLocs [SbolLoc.range 5 10 (pstr "junk")]
        = .ok [⟨5, 10, some 1⟩] from rfl] at h
    exact Except.noConfusion h

/-- Claim C8 as amended: an orientation that is neither SO_FORWARD nor
SO_REVERSE is fatal (ValueError) for feature locations on the reverse path,
but reference locations are converted without error, any non-SO_REVERSE
orientation being treated as a forward strand. -/
theorem C8_orientation_amended :
    (∀ locs : List SRange,
      (∃ l ∈ locs, l.orientation ≠ SO_FORWARD ∧ l.orientation ≠ SO_REVERSE) →
      ∃ e, convertLocParts locs = .error e) ∧
    (∀ (s e : Nat) (o : PyStr), o ≠ SO_REVERSE →
      convertCustomRefLoc (SbolLoc.range s e o) = .ok ⟨s, e, some BIO_STRAND_FORWARD⟩) := by
  constructor
  · exact convertLocParts_error_of_invalid
  · intro s e o ho
    show Except.ok (⟨s, e, some (if o = SO_REVERSE then BIO_STRAND_REVERSE
        else BIO_STRAND_FORWARD)⟩ : GBLoc)
      = Except.ok (⟨s, e, some BIO_STRAND_FORWARD⟩ : GBLoc)
    rw [if_neg ho]

/-- Witness for the amended C8: a feature location list with an invalid
orientation errors, a reference location with the same orientation converts. -/
theorem C8_orientation_amended_witness :
    (∃ e, convertLocParts [⟨1, 2, pstr "junk"⟩] = .error e) ∧
    convertCustomRefLoc (SbolLoc.range 5 10 (pstr "junk"))
      = .ok ⟨5, 10, some BIO_STRAND_FORWARD⟩ :=
  ⟨C8_orientation_amended.1 [⟨1, 2, pstr "junk"⟩]
      ⟨⟨1, 2, pstr "junk"⟩, mem_cons_self _ _, by decide, by decide⟩,
   C8_orientation_amended.2 5 10 (pstr "junk") (by decide)⟩

/-! ## The SBOL3 document as seen by the reverse converter

convert_sbol3_to_genbank iterates doc.objects.  For the status map only the
top-level kind of each object matters: Components (with their sequence
reference lists), Sequences (with element strings), and other top-level
objects such as Attachments or the converter-defined CustomReferenceProperty
objects.  Objects are identified by their display id. -/

/-- A top-level SBOL3 object. -/
inductive TLObj
  | component (displayId : String) (sequences : List String)
  | sequence (displayId : String) (elements : PyStr)
  | attachment (displayId : String)
  | customReference (displayId : String) (componentRef : String)
deriving DecidableEq

/-- The identity under which an object is found in the document. -/
def idOf : TLObj → String
  | .component i _ => i
  | .sequence i _ => i
  | .attachment i => i
  | .customReference i _ => i

/-- Whether the object is an sbol3.Component. -/
def isComponentObj : TLObj → Bool
  | .component _ _ => true
  | _ => false

/-- Whether the object is an sbol3.Sequence. -/
def isSequenceObj : TLObj → Bool
  | .sequence _ _ => true
  | _ => false

/-- Model of doc.find: the first object with the requested identity. -/
def docFind : List TLObj → String → Option TLObj
  | [], _ => none
  | o :: os, r => if idOf o = r then some o else docFind os r

/-- Sequence resolution for one component (convert_sbol3_to_genbank lines
396-406): seq starts as None; with exactly one sequence reference that
doc.find resolves, the found elements are upper-cased (reading .elements off a
non-Sequence object would raise AttributeError); more than one reference
raises ValueError; zero references leave seq as None. -/
def resolveComponentSeq (doc : List TLObj) (seqs : List String) :
    Except String (Option PyStr) :=
  match seqs with
  | [s] =>
    match docFind doc s with
    | some (.sequence _ elems) => .ok (some (pyUpper elems))
    | some _ => .error "AttributeError: object has no attribute elements"
    | none => .ok none
  | [] => .ok none
  | _ => .error "ValueError: component has more than 1 sequences"

/-- Model of lines 390-392: give the object a default False status if it does
not have an entry yet. -/
def logsEnsure (logs : List (String × Bool)) (k : String) : List (String × Bool) :=
  if (alookup k logs).isSome then logs else logs ++ [(k, false)]

/-- Processing of one document object by the status loop of
convert_sbol3_to_genbank (lines 388-404 and 499-512): every top-level object
gets a default False entry; a Component resolves its sequence (marking the
found sequence object True), and is itself marked True once converted. -/
def statusStep (doc : List TLObj) (logs : List (String × Bool)) (obj : TLObj) :
    Except String (List (String × Bool)) :=
  let logs1 := logsEnsure logs (idOf obj)
  match obj with
  | .component cid seqs =>
    match seqs with
    | [s] =>
      match docFind doc s with
      | some (.sequence sid _) => .ok (dictAssign (dictAssign logs1 sid true) cid true)
      | some _ => .error "AttributeError: object has no attribute elements"
      | none => .ok (dictAssign logs1 cid true)
    | [] => .ok (dictAssign logs1 cid true)
    | _ => .error "ValueError: component has more than 1 sequences"
  | _ => .ok logs1

/-- The document loop, threading the logs dict. -/
def statusRun (doc : List TLObj) : List TLObj → List (String × Bool) →
    Except String (List (String × Bool))
  | [], logs => .ok logs
  | obj :: rest, logs =>
    match statusStep doc logs obj with
    | .ok logs2 => statusRun doc rest logs2
    | .error e => .error e

/-- The conversion status mapping returned by convert_sbol3_to_genbank
(the "status" entry of the returned dict). -/
def statusMap (doc : List TLObj) : Except String (List (String × Bool)) :=
  statusRun doc doc []

/-- Whether some processed object is a Component with the given id. -/
def compIdsIn (pre : List TLObj) (k : String) : Bool :=
  pre.any fun o =>
    match o with
    | .component cid _ => cid = k
    | _ => false

/-- Whether some processed Component lists exactly [k] as its sequences and k
resolves to a Sequence object, i.e. the sequence with id k has been marked
converted. -/
def markedIn (doc pre : List TLObj) (k : String) : Bool :=
  pre.any fun o =>
    match o with
    | .component _ seqs =>
      seqs = [k] &&
        (match docFind doc k with
         | some (.sequence _ _) => true
         | _ => false)
    | _ => false

/-- Whether some processed object has the given id. -/
def idsIn (pre : List TLObj) (k : String) : Bool :=
  pre.any fun o => idOf o = k

/-- The status entry for key k after the objects in pre have been processed. -/
def expectedStatus (doc pre : List TLObj) (k : String) : Option Bool :=
  if compIdsIn pre k || markedIn doc pre k then some true
  else if idsIn pre k then some false else none

/-! ## Lookup lemmas for the status dict -/

theorem alookup_append_single [DecidableEq κ] (d : List (κ × β)) (k0 k : κ) (v : β) :
    alookup k (d ++ [(k0, v)]) =
      match alookup k d with
      | some w => some w
      | none => if k0 = k then some v else none := by
  induction d with
  | nil => simp [alookup]
  | cons p ps ih =>
    by_cases h : p.1 = k
    · simp [alookup, h]
    · simp only [cons_append, alookup, if_neg h]
      exact ih

theorem alookup_map_assign [DecidableEq κ] (d : List (κ × β)) (k0 k : κ) (v : β) :
    alookup k (d.map fun p => if p.1 = k0 then (k0, v) else p) =
      (alookup k d).map fun w => if k0 = k then v else w := by
  induction d with
  | nil => simp [alookup]
  | cons p ps ih =>
    simp only [map_cons, alookup]
    by_cases hp0 : p.1 = k0
    · rw [if_pos hp0]
      by_cases hk : p.1 = k
      · have hk0k : k0 = k := hp0 ▸ hk
        simp [alookup, hk0k, hk]
      · have hk0k : ¬ (k0 = k) := fun h => hk (hp0.trans h)
        simp only [alookup, if_neg hk]
        rw [if_neg hk0k, ih]
    · rw [if_neg hp0]
      by_cases hk : p.1 = k
      · have hk0k : ¬ (k0 = k) := fun h => hp0 (hk.trans h.symm)
        simp [alookup, hk, hk0k]
      · simp only [alookup, if_neg hk]
        exact ih

theorem alookup_isSome_of_any [DecidableEq κ] (d : List (κ × β)) (k : κ)
    (h : d.any (fun p => p.1 = k) = true) : (alookup k d).isSome = true := by
  induction d with
  | nil => simp at h
  | cons p ps ih =>
    simp only [any_cons, Bool.or_eq_true, decide_eq_true_eq] at h
    by_cases hp : p.1 = k
    · simp [alookup, hp]
    · rcases h with h | h
      · exact absurd h hp
      · simp only [alookup, if_neg hp]
        exact ih h

theorem alookup_none_of_not_any [DecidableEq κ] (d : List (κ × β)) (k : κ)
    (h : ¬ d.any (fun p => p.1 = k) = true) : alookup k d = none := by
  induction d with
  | nil => rfl
  | cons p ps ih =>
    simp only [any_cons, Bool.or_eq_true, decide_eq_true_eq] at h
    push_neg at h
    simp only [alookup, if_neg h.1]
    exact ih (by simpa using h.2)

theorem alookup_dictAssign [DecidableEq κ] (d : List (κ × β)) (k0 k : κ) (v : β) :
    alookup k (dictAssign d k0 v) = if k0 = k then some v else alookup k d := by
  unfold dictAssign
  by_cases hany : d.any (fun p => p.1 = k0) = true
  · rw [if_pos hany, alookup_map_assign]
    by_cases hk : k0 = k
    · subst hk
      have hsome := alookup_isSome_of_any d k0 hany
      cases hs : alookup k0 d with
      | none => rw [hs] at hsome; simp at hsome
      | some w => simp [hs]
    · cases hs : alookup k d <;> simp [hs, hk]
  · rw [if_neg hany, alookup_append_single]
    by_cases hk : k0 = k
    · subst hk
      rw [alookup_none_of_not_any d k0 hany]
    · cases hs : alookup k d <;> simp [hs, hk]

theorem alookup_logsEnsure (logs : List (String × Bool)) (k0 k : String) :
    alookup k (logsEnsure logs k0) =
      match alookup k logs with
      | some v => some v
      | none => if k0 = k then some false else none := by
  unfold logsEnsure
  by_cases h : (alookup k0 logs).isSome = true
  · rw [if_pos h]
    cases hs : alookup k logs with
    | some v => simp [hs]
    | none =>
      have hne : k0 ≠ k := by
        intro he
        rw [he, hs] at h
        simp at h
      simp [hs, hne]
  · rw [if_neg h, alookup_append_single]
    cases alookup k logs <;> rfl

theorem docFind_id (doc : List TLObj) (r : String) (o : TLObj)
    (h : docFind doc r = some o) : idOf o = r := by
  induction doc with
  | nil => simp [docFind] at h
  | cons x xs ih =>
    simp only [docFind] at h
    by_cases hx : idOf x = r
    · rw [if_pos hx] at h
      cases h
      exact hx
    · rw [if_neg hx] at h
      exact ih h

theorem docFind_self (doc : List TLObj) (hnd : (doc.map idOf).Nodup) (obj : TLObj)
    (hm : obj ∈ doc) : docFind doc (idOf obj) = some obj := by
  induction doc with
  | nil => simp at hm
  | cons x xs ih =>
    simp only [docFind]
    rcases mem_cons.1 hm with rfl | hm
    · rw [if_pos rfl]
    · by_cases hx : idOf x = idOf obj
      · exfalso
        simp only [map_cons, nodup_cons] at hnd
        exact hnd.1 (hx ▸ mem_map_of_mem idOf hm)
      · rw [if_neg hx]
        refine ih ?_ hm
        simp only [map_cons, nodup_cons] at hnd
        exact hnd.2

theorem id_injective_of_nodup (doc : List TLObj) (hnd : (doc.map idOf).Nodup)
    (o o₂ : TLObj) (ho : o ∈ doc) (ho₂ : o₂ ∈ doc) (he : idOf o = idOf o₂) : o = o₂ := by
  have h1 := docFind_self doc hnd o ho
  have h2 := docFind_self doc hnd o₂ ho₂
  rw [he, h2] at h1
  exact (Option.some.injEq _ _ ▸ h1).symm

theorem compIdsIn_append (l1 l2 : List TLObj) (k : String) :
    compIdsIn (l1 ++ l2) k = (compIdsIn l1 k || compIdsIn l2 k) := by
  simp [compIdsIn, List.any_append]

theorem markedIn_append (doc l1 l2 : List TLObj) (k : String) :
    markedIn doc (l1 ++ l2) k = (markedIn doc l1 k || markedIn doc l2 k) := by
  simp [markedIn, List.any_append]

theorem idsIn_append (l1 l2 : List TLObj) (k : String) :
    idsIn (l1 ++ l2) k = (idsIn l1 k || idsIn l2 k) := by
  simp [idsIn, List.any_append]

/-- Appending an object that neither is a Component with id k nor marks the
sequence k extends the expected status only by the default-False entry for its
own id. -/
theorem expected_append_same (doc pre : List TLObj) (obj : TLObj) (k : String)
    (hc : compIdsIn [obj] k = false) (hm : markedIn doc [obj] k = false) :
    expectedStatus doc (pre ++ [obj]) k =
      match expectedStatus doc pre k with
      | some v => some v
      | none => if idOf obj = k then some false else none := by
  unfold expectedStatus
  rw [compIdsIn_append, markedIn_append, idsIn_append, hc, hm]
  simp only [Bool.or_false]
  by_cases h1 : (compIdsIn pre k || markedIn doc pre k) = true
  · simp [h1]
  · rw [if_neg h1, if_neg h1]
    by_cases h2 : idsIn pre k = true
    · simp [h2]
    · have hobj : idsIn [obj] k = decide (idOf obj = k) := by simp [idsIn]
      simp only [h2, if_neg, Bool.false_or, hobj]
      by_cases h3 : idOf obj = k
      · simp [h2, h3]
      · simp [h2, h3]

/-! ## Status map invariant -/

theorem statusStep_comp_single (doc : List TLObj) (logs : List (String × Bool))
    (cid s : String) :
    statusStep doc logs (.component cid [s]) =
      match docFind doc s with
      | some (.sequence sid _) =>
        .ok (dictAssign (dictAssign (logsEnsure logs cid) sid true) cid true)
      | some _ => .error "AttributeError: object has no attribute elements"
      | none => .ok (dictAssign (logsEnsure logs cid) cid true) := rfl

theorem expected_append_comp_self (doc pre : List TLObj) (cid : String)
    (seqs : List String) :
    expectedStatus doc (pre ++ [TLObj.component cid seqs]) cid = some true := by
  unfold expectedStatus
  rw [compIdsIn_append]
  have hc : compIdsIn [TLObj.component cid seqs] cid = true := by simp [compIdsIn]
  rw [hc]
  simp

theorem statusStep_inv (doc pre : List TLObj) (obj : TLObj) (logs : List (String × Bool))
    (hInv : ∀ k, alookup k logs = expectedStatus doc pre k)
    (hok : ∀ cid seqs, obj = TLObj.component cid seqs → seqs.length ≤ 1)
    (hfind : ∀ cid s, obj = TLObj.component cid [s] →
      (match docFind doc s with
       | some o => isSequenceObj o = true
       | none => True)) :
    ∃ logs2, statusStep doc logs obj = .ok logs2 ∧
      ∀ k, alookup k logs2 = expectedStatus doc (pre ++ [obj]) k := by
  have hbase : ∀ (k0 k : String), alookup k (logsEnsure logs k0) =
      match expectedStatus doc pre k with
      | some v => some v
      | none => if k0 = k then some false else none := by
    intro k0 k
    rw [alookup_logsEnsure, hInv k]
  cases obj with
  | sequence i e =>
    refine ⟨_, rfl, fun k => ?_⟩
    simp only [idOf]
    rw [hbase i k, expected_append_same doc pre (.sequence i e) k
      (by simp [compIdsIn]) (by simp [markedIn])]
    cases expectedStatus doc pre k <;> rfl
  | attachment i =>
    refine ⟨_, rfl, fun k => ?_⟩
    simp only [idOf]
    rw [hbase i k, expected_append_same doc pre (.attachment i) k
      (by simp [compIdsIn]) (by simp [markedIn])]
    cases expectedStatus doc pre k <;> rfl
  | customReference i r =>
    refine ⟨_, rfl, fun k => ?_⟩
    simp only [idOf]
    rw [hbase i k, expected_append_same doc pre (.customReference i r) k
      (by simp [compIdsIn]) (by simp [markedIn])]
    cases expectedStatus doc pre k <;> rfl
  | component cid seqs =>
    cases seqs with
    | nil =>
      refine ⟨_, rfl, fun k => ?_⟩
      simp only [idOf]
      rw [alookup_dictAssign]
      by_cases hck : cid = k
      · rw [if_pos hck]
        subst hck
        exact (expected_append_comp_self doc pre cid []).symm
      · rw [if_neg hck, hbase cid k, expected_append_same doc pre (.component cid []) k
          (by simp [compIdsIn, hck]) (by simp [markedIn])]
        cases expectedStatus doc pre k <;> rfl
    | cons s rest =>
      cases rest with
      | cons s2 rest2 =>
        have hlen := hok cid (s :: s2 :: rest2) rfl
        simp at hlen
      | nil =>
        have hf := hfind cid s rfl
        cases hdf : docFind doc s with
        | none =>
          refine ⟨_, by rw [statusStep_comp_single, hdf], fun k => ?_⟩
          rw [alookup_dictAssign]
          by_cases hck : cid = k
          · rw [if_pos hck]
            subst hck
            exact (expected_append_comp_self doc pre cid [s]).symm
          · have hm : markedIn doc [TLObj.component cid [s]] k = false := by
              by_cases hsk : s = k
              · subst hsk
                simp [markedIn, hdf]
              · simp [markedIn, hsk]
            rw [if_neg hck, hbase cid k,
              expected_append_same doc pre (.component cid [s]) k
                (by simp [compIdsIn, hck]) hm]
            cases expectedStatus doc pre k <;> rfl
        | some o =>
          rw [hdf] at hf
          cases o with
          | component c2 s2 => simp [isSequenceObj] at hf
          | attachment i => simp [isSequenceObj] at hf
          | customReference i r => simp [isSequenceObj] at hf
          | sequence sid elems =>
            have hsid : sid = s := docFind_id doc s _ hdf
            subst hsid
            refine ⟨_, by rw [statusStep_comp_single, hdf], fun k => ?_⟩
            rw [alookup_dictAssign]
            by_cases hck : cid = k
            · rw [if_pos hck]
              subst hck
              exact (expected_append_comp_self doc pre cid [sid]).symm
            · rw [if_neg hck, alookup_dictAssign]
              by_cases hsk : sid = k
              · rw [if_pos hsk]
                subst hsk
                unfold expectedStatus
                rw [markedIn_append]
                have hm : markedIn doc [TLObj.component cid [sid]] sid = true := by
                  simp [markedIn, hdf]
                rw [hm]
                simp
              · have hm : markedIn doc [TLObj.component cid [sid]] k = false := by
                  simp [markedIn, hsk]
                rw [if_neg hsk, hbase cid k,
                  expected_append_same doc pre (.component cid [sid]) k
                    (by simp [compIdsIn, hck]) hm]
                cases expectedStatus doc pre k <;> rfl

theorem statusRun_inv (doc : List TLObj)
    (hok : ∀ cid seqs, TLObj.component cid seqs ∈ doc → seqs.length ≤ 1)
    (hfind : ∀ cid s, TLObj.component cid [s] ∈ doc →
      (match docFind doc s with
       | some o => isSequenceObj o = true
       | none => True)) :
    ∀ (rest pre : List TLObj), (∀ o ∈ rest, o ∈ doc) →
    ∀ logs, (∀ k, alookup k logs = expectedStatus doc pre k) →
    ∃ logs2, statusRun doc rest logs = .ok logs2 ∧
      ∀ k, alookup k logs2 = expectedStatus doc (pre ++ rest) k := by
  intro rest
  induction rest with
  | nil =>
    intro pre _ logs hInv
    exact ⟨logs, rfl, by simpa using hInv⟩
  | cons obj rest2 ih =>
    intro pre hmem logs hInv
    obtain ⟨logs2, hstep, hInv2⟩ := statusStep_inv doc pre obj logs hInv
      (fun cid seqs he => hok cid seqs (he ▸ hmem obj (mem_cons_self _ _)))
      (fun cid s he => hfind cid s (he ▸ hmem obj (mem_cons_self _ _)))
    obtain ⟨logs3, hrun, hInv3⟩ :=
      ih (pre ++ [obj]) (fun o ho => hmem o (mem_cons_of_mem _ ho)) logs2 hInv2
    refine ⟨logs3, ?_, fun k => ?_⟩
    · simp only [statusRun, hstep]
      exact hrun
    · rw [hInv3 k]
      have heq : (pre ++ [obj]) ++ rest2 = pre ++ obj :: rest2 := by simp
      rw [heq]

/-! ## Claim theorems: C7 and C9 -/

/-- Claim C7: on the reverse path a Component listing more than one sequence
raises a fatal ValueError; zero or one sequence proceeds, the record sequence
being the found sequence elements upper-cased when present and None when the
reference list is empty or does not resolve. -/
theorem C7_sequence_count (doc : List TLObj) (seqs : List String) (s sid : String)
    (elems : PyStr) :
    (1 < seqs.length →
      resolveComponentSeq doc seqs = .error "ValueError: component has more than 1 sequences") ∧
    (resolveComponentSeq doc [] = .ok none) ∧
    (docFind doc s = none → resolveComponentSeq doc [s] = .ok none) ∧
    (docFind doc s = some (.sequence sid elems) →
      resolveComponentSeq doc [s] = .ok (some (pyUpper elems))) := by
  refine ⟨?_, rfl, ?_, ?_⟩
  · intro hlen
    cases seqs with
    | nil => simp at hlen
    | cons a t =>
      cases t with
      | nil => simp at hlen
      | cons b t2 => rfl
  · intro hdf
    show (match docFind doc s with
      | some (.sequence _ elems) => Except.ok (some (pyUpper elems))
      | some _ => Except.error "AttributeError: object has no attribute elements"
      | none => Except.ok none) = Except.ok none
    rw [hdf]
  · intro hdf
    show (match docFind doc s with
      | some (.sequence _ elems) => Except.ok (some (pyUpper elems))
      | some _ => Except.error "AttributeError: object has no attribute elements"
      | none => Except.ok none) = Except.ok (some (pyUpper elems))
    rw [hdf]

/-- Witness for C7 at a document with one sequence object: two references are
fatal, zero or one proceed, a resolving reference yields the upper-cased
elements. -/
theorem C7_sequence_count_witness :
    (resolveComponentSeq [TLObj.sequence "s" (pstr "acgt")] ["s1", "s2"]
      = .error "ValueError: component has more than 1 sequences") ∧
    (resolveComponentSeq [TLObj.sequence "s" (pstr "acgt")] [] = .ok none) ∧
    (resolveComponentSeq [TLObj.sequence "s" (pstr "acgt")] ["zz"] = .ok none) ∧
    (resolveComponentSeq [TLObj.sequence "s" (pstr "acgt")] ["s"]
      = .ok (some (pyUpper (pstr "acgt")))) :=
  ⟨(C7_sequence_count [TLObj.sequence "s" (pstr "acgt")] ["s1", "s2"] "s" "s"
      (pstr "acgt")).1 (by decide),
   (C7_sequence_count [TLObj.sequence "s" (pstr "acgt")] [] "s" "s" (pstr "acgt")).2.1,
   (C7_sequence_count [TLObj.sequence "s" (pstr "acgt")] [] "zz" "s" (pstr "acgt")).2.2.1
      (by decide),
   (C7_sequence_count [TLObj.sequence "s" (pstr "acgt")] [] "s" "s" (pstr "acgt")).2.2.2
      (by decide)⟩

/-- Claim C9: the status mapping has an entry for every top-level object of
the document; Components map to true, a Sequence maps to true exactly when
some Component lists it as its single resolving sequence, and every other
top-level object (attachments, custom reference objects, unreferenced
sequences) stays at false — without this being an error. -/
theorem C9_status_map (doc : List TLObj)
    (hnd : (doc.map idOf).Nodup)
    (hok : ∀ cid seqs, TLObj.component cid seqs ∈ doc → seqs.length ≤ 1)
    (hfind : ∀ cid s, TLObj.component cid [s] ∈ doc →
      (match docFind doc s with
       | some o => isSequenceObj o = true
       | none => True)) :
    ∃ logs, statusMap doc = .ok logs ∧
      ∀ obj ∈ doc, alookup (idOf obj) logs
        = some (isComponentObj obj || (isSequenceObj obj && markedIn doc doc (idOf obj))) := by
  obtain ⟨logs, hrun, hInv⟩ := statusRun_inv doc hok hfind doc [] (fun o ho => ho) []
    (fun k => by simp [alookup, expectedStatus, compIdsIn, markedIn, idsIn])
  refine ⟨logs, hrun, fun obj hobj => ?_⟩
  have h := hInv (idOf obj)
  rw [nil_append] at h
  rw [h]
  unfold expectedStatus
  have hids : idsIn doc (idOf obj) = true := by
    simp only [idsIn, any_eq_true, decide_eq_true_eq]
    exact ⟨obj, hobj, rfl⟩
  have hcomp : compIdsIn doc (idOf obj) = isComponentObj obj := by
    cases hc : isComponentObj obj with
    | true =>
      cases obj with
      | component cid seqs =>
        simp only [compIdsIn, any_eq_true]
        exact ⟨TLObj.component cid seqs, hobj, by simp [idOf]⟩
      | sequence i e => simp [isComponentObj] at hc
      | attachment i => simp [isComponentObj] at hc
      | customReference i r => simp [isComponentObj] at hc
    | false =>
      by_contra hcc
      have htrue : compIdsIn doc (idOf obj) = true := by
        cases hval : compIdsIn doc (idOf obj) with
        | true => rfl
        | false => exact absurd hval hcc
      obtain ⟨o, ho, hcond⟩ := any_eq_true.1 htrue
      cases o with
      | component cid seqs =>
        have hid : cid = idOf obj := by simpa using hcond
        have hoe : TLObj.component cid seqs = obj :=
          id_injective_of_nodup doc hnd _ obj ho hobj (by simp [idOf, hid])
        rw [← hoe] at hc
        simp [isComponentObj] at hc
      | sequence i e => simp at hcond
      | attachment i => simp at hcond
      | customReference i r => simp at hcond
  have hmark : markedIn doc doc (idOf obj) = true → isSequenceObj obj = true := by
    intro hm
    obtain ⟨o, ho, hcond⟩ := any_eq_true.1 hm
    have hself : docFind doc (idOf obj) = some obj := docFind_self doc hnd obj hobj
    cases o with
    | component cid seqs =>
      rw [Bool.and_eq_true] at hcond
      have hmatch := hcond.2
      rw [hself] at hmatch
      cases obj with
      | sequence i e => rfl
      | component c2 s2 => simp at hmatch
      | attachment i => simp at hmatch
      | customReference i r => simp at hmatch
    | sequence i e => simp at hcond
    | attachment i => simp at hcond
    | customReference i r => simp at hcond
  rw [hcomp]
  cases hcv : isComponentObj obj with
  | true => simp
  | false =>
    cases hmv : markedIn doc doc (idOf obj) with
    | true =>
      rw [hmark hmv]
      simp
    | false =>
      simp [hids]

/-- Witness for C9 at the document of the spec example: one component with
its sequence and one unrelated attachment.  The component and its sequence
come out true, the attachment false. -/
theorem C9_status_map_witness :
    ∃ logs, statusMap [TLObj.component "c" ["s"], TLObj.sequence "s" (pstr "acgt"),
        TLObj.attachment "a"] = .ok logs ∧
      ∀ obj ∈ [TLObj.component "c" ["s"], TLObj.sequence "s" (pstr "acgt"),
        TLObj.attachment "a"], alookup (idOf obj) logs
        = some (isComponentObj obj || (isSequenceObj obj &&
            markedIn [TLObj.component "c" ["s"], TLObj.sequence "s" (pstr "acgt"),
                TLObj.attachment "a"]
              [TLObj.component "c" ["s"], TLObj.sequence "s" (pstr "acgt"),
                TLObj.attachment "a"] (idOf obj))) :=
  C9_status_map [TLObj.component "c" ["s"], TLObj.sequence "s" (pstr "acgt"),
      TLObj.attachment "a"]
    (by decide)
    (by
      intro cid seqs h
      rcases mem_cons.1 h with h1 | h1
      · injection h1 with e1 e2
        subst e1
        subst e2
        decide
      · rcases mem_cons.1 h1 with h2 | h2
        · exact TLObj.noConfusion h2
        · rcases mem_cons.1 h2 with h3 | h3
          · exact TLObj.noConfusion h3
          · simp at h3)
    (by
      intro cid s h
      rcases mem_cons.1 h with h1 | h1
      · injection h1 with e1 e2
        subst e1
        injection e2 with e3 e4
        subst e3
        exact rfl
      · rcases mem_cons.1 h1 with h2 | h2
        · exact TLObj.noConfusion h2
        · rcases mem_cons.1 h2 with h3 | h3
          · exact TLObj.noConfusion h3
          · simp at h3)

/-! ## Record-level annotations (the metadata extension schema)

_store_extra_properties_in_sbol3 copies every record annotation into the
extension fields of Component_GenBank_Extension, raising ValueError on a key
outside the enumerated list; _reset_extra_properties_in_genbank writes them
back into a fresh annotations dict on the output record. -/

/-- A BioPython Reference object attached to a GenBank record (fields default
to strings in BioPython). -/
structure GBReference where
  authors : PyStr
  comment : PyStr
  journal : PyStr
  title : PyStr
  consrtm : PyStr
  medline_id : PyStr
  pubmed_id : PyStr
  location : List GBLoc
deriving DecidableEq

/-- One annotation value as stored in the BioPython annotations dict; pynone
models a Python None written into the dict. -/
inductive AnnValue
  | str (s : PyStr)
  | strList (l : List PyStr)
  | int (n : Int)
  | refs (l : List GBReference)
  | pynone
deriving DecidableEq

/-- The CustomReferenceProperty top-level object used to park reference data
in the SBOL3 document. -/
structure CustomReferenceProperty where
  identity : PyStr
  authors : PyStr
  comment : PyStr
  journal : PyStr
  title : PyStr
  consrtm : PyStr
  medline_id : PyStr
  pubmed_id : PyStr
  component : Option PyStr
  location : List SbolLoc
deriving DecidableEq

/-- The extension fields of Component_GenBank_Extension (all optional; list
properties default to empty). -/
structure ComponentExt where
  genbank_record_id : Option PyStr := none
  genbank_date : Option PyStr := none
  genbank_division : Option PyStr := none
  genbank_topology : Option PyStr := none
  genbank_keywords : List PyStr := []
  genbank_molecule_type : Option PyStr := none
  genbank_organism : Option PyStr := none
  genbank_source : Option PyStr := none
  genbank_taxonomy : Option PyStr := none
  genbank_gi : Option PyStr := none
  genbank_accessions : List PyStr := []
  genbank_seq_version : Option Int := none
  genbank_locus : Option PyStr := none
deriving DecidableEq

/-- The record-level data of one GenBank record: id, name (locus) and the
insertion-ordered annotations dict. -/
structure GBRecord where
  id : PyStr
  name : PyStr
  annotations : List (String × AnnValue)

/-- Lexicographic comparison of Python strings by code point, the order used
by the Python builtin sorted on lists of strings. -/
def pyStrLe : PyStr → PyStr → Bool
  | [], _ => true
  | _ :: _, [] => false
  | a :: as_, b :: bs => if a = b then pyStrLe as_ bs else decide (a < b)

/-- Model of sorted(list_of_strings). -/
def pySortedStrs (l : List PyStr) : List PyStr := pySortBy pyStrLe l

/-- The loop of lines 567-592 building one CustomReferenceProperty per record
reference, from index i: identity comp.identity + "/Reference_" + str(ind),
scalar fields copied, locations converted with the point/range rule, and the
parent display id stored when it is non-empty. -/
def convertGBRefsFrom (recName : PyStr) (i : Nat) :
    List GBReference → List CustomReferenceProperty
  | [] => []
  | ref :: rest =>
    { identity := recName ++ pstr "/Reference_" ++ natDigits i,
      authors := ref.authors, comment := ref.comment, journal := ref.journal,
      title := ref.title, consrtm := ref.consrtm, medline_id := ref.medline_id,
      pubmed_id := ref.pubmed_id,
      component := if recName ≠ [] then some recName else none,
      location := ref.location.map (fun l => gbLocToSbol l.start l.end_ l.strand) }
      :: convertGBRefsFrom recName (i + 1) rest

/-- The enumerated record-level annotation keys accepted by the forward
converter (_store_extra_properties_in_sbol3 lines 525-595). -/
def enumeratedGenbankFields : List String :=
  ["date", "data_file_division", "keywords", "molecule_type", "organism", "source",
   "taxonomy", "topology", "gi", "accessions", "sequence_version", "references"]

/-- An unset optional text property reads back as Python None. -/
def optToAnn : Option PyStr → AnnValue
  | some s => .str s
  | none => .pynone

/-- An unset optional int property reads back as Python None. -/
def optIntToAnn : Option Int → AnnValue
  | some n => .int n
  | none => .pynone

/-- One iteration of the annotations loop of _store_extra_properties_in_sbol3
(lines 525-595): the if-elif chain on the annotation key, a value of an
unexpected shape being a TypeError and an unrecognized key the fatal
ValueError of lines 593-595. -/
def storeAnnStep (recName : PyStr) (st : ComponentExt × List CustomReferenceProperty)
    (k : String) (v : AnnValue) :
    Except String (ComponentExt × List CustomReferenceProperty) :=
  if k = "date" then
    match v with
    | .str s => .ok ({ st.1 with genbank_date := some s }, st.2)
    | _ => .error "TypeError"
  else if k = "data_file_division" then
    match v with
    | .str s =>
      if s = pstr "circular" ∨ s = pstr "linear" then
        .ok ({ st.1 with genbank_topology := some s }, st.2)
      else .ok ({ st.1 with genbank_division := some s }, st.2)
    | _ => .error "TypeError"
  else if k = "keywords" then
    match v with
    | .strList l => .ok ({ st.1 with genbank_keywords := pySortedStrs l }, st.2)
    | _ => .error "TypeError"
  else if k = "molecule_type" then
    match v with
    | .str s => .ok ({ st.1 with genbank_molecule_type := some s }, st.2)
    | _ => .error "TypeError"
  else if k = "organism" then
    match v with
    | .str s => .ok ({ st.1 with genbank_organism := some s }, st.2)
    | _ => .error "TypeError"
  else if k = "source" then
    match v with
    | .str s => .ok ({ st.1 with genbank_source := some s }, st.2)
    | _ => .error "TypeError"
  else if k = "taxonomy" then
    match v with
    | .strList l => .ok ({ st.1 with genbank_taxonomy := some (pyJoin ',' l) }, st.2)
    | _ => .error "TypeError"
  else if k = "topology" then
    match v with
    | .str s => .ok ({ st.1 with genbank_topology := some s }, st.2)
    | _ => .error "TypeError"
  else if k = "gi" then
    match v with
    | .str s => .ok ({ st.1 with genbank_gi := some s }, st.2)
    | _ => .error "TypeError"
  else if k = "accessions" then
    match v with
    | .strList l => .ok ({ st.1 with genbank_accessions := pySortedStrs l }, st.2)
    | _ => .error "TypeError"
  else if k = "sequence_version" then
    match v with
    | .int n => .ok ({ st.1 with genbank_seq_version := some n }, st.2)
    | _ => .error "TypeError"
  else if k = "references" then
    match v with
    | .refs rl => .ok (st.1, st.2 ++ convertGBRefsFrom recName 0 rl)
    | _ => .error "TypeError"
  else .error "ValueError: key is not recognized as a standard record field"

/-- The annotations loop, aborting at the first exception. -/
def processAnns (recName : PyStr) (st : ComponentExt × List CustomReferenceProperty) :
    List (String × AnnValue) →
    Except String (ComponentExt × List CustomReferenceProperty)
  | [] => .ok st
  | (k, v) :: rest =>
    match storeAnnStep recName st k v with
    | .ok st2 => processAnns recName st2 rest
    | .error e => .error e

/-- Model of _store_extra_properties_in_sbol3: record.id is stored first
(line 524), then every annotation is copied through the if-elif chain, and
finally record.name is stored as the locus (line 598). -/
def storeExtraPropertiesInSbol3 (r : GBRecord) :
    Except String (ComponentExt × List CustomReferenceProperty) :=
  match processAnns r.name ({ genbank_record_id := some r.id }, []) r.annotations with
  | .ok (c, crefs) => .ok ({ c with genbank_locus := some r.name }, crefs)
  | .error e => .error e

/-- Rebuilding one BioPython Reference from a stored CustomReferenceProperty
(lines 643-669); location conversion may raise (see convertCustomRefLoc). -/
def customRefToReference (cr : CustomReferenceProperty) : Except String GBReference :=
  match convertCustomRefLocs cr.location with
  | .ok gls =>
    .ok { authors := cr.authors, comment := cr.comment, journal := cr.journal,
          title := cr.title, consrtm := cr.consrtm, medline_id := cr.medline_id,
          pubmed_id := cr.pubmed_id, location := gls }
  | .error e => .error e

/-- Rebuilding the whole reference list in discovery order. -/
def customRefsToReferences : List CustomReferenceProperty →
    Except String (List GBReference)
  | [] => .ok []
  | cr :: rest =>
    match customRefToReference cr with
    | .ok r => (customRefsToReferences rest).map (fun rs => r :: rs)
    | .error e => .error e

/-- Model of _reset_extra_properties_in_genbank (lines 601-674) for a
component that is an instance of the extension class (the forward converter
always produces one): record id and annotations are rebuilt in the fixed
source order; source is skipped only when it equals the empty string, taxonomy
and gi only when falsy; line 638 writes the stored version under the
misspelled key sequnce_version, and line 674 unconditionally forces
sequence_version to DEFAULT_GB_SEQ_VERSION.  The refs argument is the entry of
the reference grouping map for this component, when present. -/
def resetExtraPropertiesInGenbank (c : ComponentExt)
    (refs : Option (List CustomReferenceProperty)) :
    Except String (Option PyStr × List (String × AnnValue)) :=
  let anns1 : List (String × AnnValue) :=
    [("date", optToAnn c.genbank_date),
     ("data_file_division", optToAnn c.genbank_division),
     ("keywords", AnnValue.strList (pySortedStrs c.genbank_keywords)),
     ("molecule_type", optToAnn c.genbank_molecule_type),
     ("organism", optToAnn c.genbank_organism)]
  let anns2 := anns1 ++
    (if c.genbank_source ≠ some (pstr "") then [("source", optToAnn c.genbank_source)]
     else [])
  let anns3 := anns2 ++
    (match c.genbank_taxonomy with
     | some t => if t ≠ [] then [("taxonomy", AnnValue.strList (pySplitAll ',' t))] else []
     | none => [])
  let anns4 := anns3 ++ [("topology", optToAnn c.genbank_topology)]
  let anns5 := anns4 ++
    (match c.genbank_gi with
     | some g => if g ≠ [] then [("gi", AnnValue.str g)] else []
     | none => [])
  let anns6 := anns5 ++
    [("accessions", AnnValue.strList (pySortedStrs c.genbank_accessions)),
     ("sequnce_version", optIntToAnn c.genbank_seq_version)]
  match refs with
  | some rl =>
    match customRefsToReferences rl with
    | .ok grefs =>
      .ok (c.genbank_record_id,
        anns6 ++ [("references", AnnValue.refs grefs),
                  ("sequence_version", AnnValue.int DEFAULT_GB_SEQ_VERSION)])
    | .error e => .error e
  | none =>
    .ok (c.genbank_record_id, anns6 ++ [("sequence_version", AnnValue.int DEFAULT_GB_SEQ_VERSION)])

/-- The record-level round trip: store the annotations into the extension
component, then reset them into a fresh record.  The reference grouping map of
convert_sbol3_to_genbank (lines 369-373) contains the component exactly when
at least one CustomReferenceProperty was stored and carries the display id,
which happens when the record name is non-empty. -/
def annRoundTrip (r : GBRecord) :
    Except String (Option PyStr × List (String × AnnValue)) :=
  match storeExtraPropertiesInSbol3 r with
  | .ok (c, crefs) =>
    resetExtraPropertiesInGenbank c
      (if crefs ≠ [] ∧ r.name ≠ [] then some crefs else none)
  | .error e => .error e

/-- Well-shaped annotation values: the value types BioPython delivers for each
enumerated key (any value for a non-enumerated key). -/
def annWellTyped (k : String) (v : AnnValue) : Bool :=
  if k = "date" ∨ k = "data_file_division" ∨ k = "molecule_type" ∨ k = "organism"
      ∨ k = "source" ∨ k = "topology" ∨ k = "gi" then
    match v with
    | .str _ => true
    | _ => false
  else if k = "keywords" ∨ k = "taxonomy" ∨ k = "accessions" then
    match v with
    | .strList _ => true
    | _ => false
  else if k = "sequence_version" then
    match v with
    | .int _ => true
    | _ => false
  else if k = "references" then
    match v with
    | .refs _ => true
    | _ => false
  else true

/-! ## Lemmas for the annotations loop -/

theorem storeAnnStep_ok (recName : PyStr) (st : ComponentExt × List CustomReferenceProperty)
    (k : String) (v : AnnValue) (hk : k ∈ enumeratedGenbankFields)
    (hwt : annWellTyped k v = true) :
    ∃ st2, storeAnnStep recName st k v = .ok st2 := by
  fin_cases hk <;> cases v <;>
    simp_all [storeAnnStep, annWellTyped] <;>
    first
      | exact ⟨_, _, rfl⟩
      | (split <;> exact ⟨_, _, rfl⟩)

theorem storeAnnStep_error (recName : PyStr) (st : ComponentExt × List CustomReferenceProperty)
    (k : String) (v : AnnValue) (hk : k ∉ enumeratedGenbankFields) :
    storeAnnStep recName st k v
      = .error "ValueError: key is not recognized as a standard record field" := by
  simp only [enumeratedGenbankFields, mem_cons, not_mem_nil, or_false, not_or] at hk
  obtain ⟨h1, h2, h3, h4, h5, h6, h7, h8, h9, h10, h11, h12⟩ := hk
  simp [storeAnnStep, h1, h2, h3, h4, h5, h6, h7, h8, h9, h10, h11, h12]

theorem processAnns_error_iff (anns : List (String × AnnValue)) :
    ∀ (recName : PyStr) (st : ComponentExt × List CustomReferenceProperty),
    (∀ p ∈ anns, annWellTyped p.1 p.2 = true) →
    ((∃ e, processAnns recName st anns = .error e) ↔
      ∃ p ∈ anns, p.1 ∉ enumeratedGenbankFields) := by
  induction anns with
  | nil =>
    intro recName st _
    simp [processAnns]
  | cons p rest ih =>
    intro recName st hwt
    obtain ⟨k, v⟩ := p
    by_cases hk : k ∈ enumeratedGenbankFields
    · obtain ⟨st2, hst2⟩ := storeAnnStep_ok recName st k v hk (hwt (k, v) (mem_cons_self _ _))
      constructor
      · intro he
        obtain ⟨e, he⟩ := he
        simp only [processAnns, hst2] at he
        obtain ⟨q, hq, hqk⟩ :=
          (ih recName st2 (fun q hq => hwt q (mem_cons_of_mem _ hq))).1 ⟨e, he⟩
        exact ⟨q, mem_cons_of_mem _ hq, hqk⟩
      · intro hex
        obtain ⟨q, hq, hqk⟩ := hex
        rcases mem_cons.1 hq with rfl | hq
        · exact absurd hk hqk
        · obtain ⟨e, he⟩ :=
            (ih recName st2 (fun q hq => hwt q (mem_cons_of_mem _ hq))).2 ⟨q, hq, hqk⟩
          refine ⟨e, ?_⟩
          simp only [processAnns, hst2]
          exact he
    · constructor
      · intro _
        exact ⟨(k, v), mem_cons_self _ _, hk⟩
      · intro _
        refine ⟨"ValueError: key is not recognized as a standard record field", ?_⟩
        simp [processAnns, storeAnnStep_error recName st k v hk]

/-! ## Claim theorem: C5 -/

/-- Claim C5: the forward conversion of record annotations fails with a fatal
ValueError exactly when some record-level annotation key lies outside the
enumerated field list (for well-shaped annotation values); no unknown metadata
field is silently dropped. -/
theorem C5_unknown_field_fatal (r : GBRecord)
    (hwt : ∀ p ∈ r.annotations, annWellTyped p.1 p.2 = true) :
    (∃ e, storeExtraPropertiesInSbol3 r = .error e) ↔
      ∃ p ∈ r.annotations, p.1 ∉ enumeratedGenbankFields := by
  have hiff := processAnns_error_iff r.annotations r.name
    ({ genbank_record_id := some r.id }, []) hwt
  unfold storeExtraPropertiesInSbol3
  constructor
  · intro he
    obtain ⟨e, he⟩ := he
    cases hpa : processAnns r.name ({ genbank_record_id := some r.id }, []) r.annotations with
    | ok st =>
      rw [hpa] at he
      obtain ⟨c, crefs⟩ := st
      exact Except.noConfusion he
    | error e2 => exact hiff.1 ⟨e2, hpa⟩
  · intro hex
    obtain ⟨e, he⟩ := hiff.2 hex
    exact ⟨e, by rw [he]⟩

/-- Witness for C5 at a record carrying the non-enumerated key "foo". -/
theorem C5_unknown_field_fatal_witness :
    ∃ e, storeExtraPropertiesInSbol3
      ⟨pstr "ID1", pstr "NM1",
       [("molecule_type", AnnValue.str (pstr "DNA")),
        ("foo", AnnValue.str (pstr "bar"))]⟩ = .error e :=
  (C5_unknown_field_fatal
    ⟨pstr "ID1", pstr "NM1",
     [("molecule_type", AnnValue.str (pstr "DNA")),
      ("foo", AnnValue.str (pstr "bar"))]⟩ (by decide)).2
    ⟨("foo", AnnValue.str (pstr "bar")), by decide, by decide⟩

theorem pyJoin_ne_nil (tax : List PyStr) (h1 : tax ≠ []) (h2 : tax ≠ [[]]) :
    pyJoin ',' tax ≠ [] := by
  cases tax with
  | nil => exact absurd rfl h1
  | cons a rest =>
    cases rest with
    | nil =>
      intro hc
      exact h2 (by rw [show a = [] from hc])
    | cons b rest2 =>
      intro hc
      simp [pyJoin] at hc

/-! ## Claim C1: the record-level round trip -/

/-- Counterexample to claim C1: a GenBank record whose annotations all lie in
the enumerated field list is NOT reproduced exactly up to the
sequence_version-to-1 exception.  The round trip re-sorts the keywords
(["b","a"] comes back as ["a","b"]) and additionally emits the stored version
under the misspelled annotation key sequnce_version (source line 638), so the
output annotations are not even a permutation of the claimed ones. -/
theorem C1_counterexample :
    annRoundTrip
      ⟨pstr "ID1", pstr "NM1",
       [("date", AnnValue.str (pstr "01-JAN-2000")),
        ("data_file_division", AnnValue.str (pstr "PLN")),
        ("keywords", AnnValue.strList [pstr "b", pstr "a"]),
        ("molecule_type", AnnValue.str (pstr "DNA")),
        ("organism", AnnValue.str (pstr "Escherichia coli")),
        ("source", AnnValue.str (pstr "E coli")),
        ("taxonomy", AnnValue.strList [pstr "Bacteria"]),
        ("topology", AnnValue.str (pstr "linear")),
        ("gi", AnnValue.str (pstr "123")),
        ("accessions", AnnValue.strList [pstr "X1"]),
        ("sequence_version", AnnValue.int 5)]⟩
    = .ok (some (pstr "ID1"),
       [("date", AnnValue.str (pstr "01-JAN-2000")),
        ("data_file_division", AnnValue.str (pstr "PLN")),
        ("keywords", AnnValue.strList [pstr "a", pstr "b"]),
        ("molecule_type", AnnValue.str (pstr "DNA")),
        ("organism", AnnValue.str (pstr "Escherichia coli")),
        ("source", AnnValue.str (pstr "E coli")),
        ("taxonomy", AnnValue.strList [pstr "Bacteria"]),
        ("topology", AnnValue.str (pstr "linear")),
        ("gi", AnnValue.str (pstr "123")),
        ("accessions", AnnValue.strList [pstr "X1"]),
        ("sequnce_version", AnnValue.int 5),
        ("sequence_version", AnnValue.int 1)]) ∧
    ¬ ([("date", AnnValue.str (pstr "01-JAN-2000")),
        ("data_file_division", AnnValue.str (pstr "PLN")),
        ("keywords", AnnValue.strList [pstr "a", pstr "b"]),
        ("molecule_type", AnnValue.str (pstr "DNA")),
        ("organism", AnnValue.str (pstr "Escherichia coli")),
        ("source", AnnValue.str (pstr "E coli")),
        ("taxonomy", AnnValue.strList [pstr "Bacteria"]),
        ("topology", AnnValue.str (pstr "linear")),
        ("gi", AnnValue.str (pstr "123")),
        ("accessions", AnnValue.strList [pstr "X1"]),
        ("sequnce_version", AnnValue.int 5),
        ("sequence_version", AnnValue.int 1)]
      ~ [("date", AnnValue.str (pstr "01-JAN-2000")),
        ("data_file_division", AnnValue.str (pstr "PLN")),
        ("keywords", AnnValue.strList [pstr "b", pstr "a"]),
        ("molecule_type", AnnValue.str (pstr "DNA")),
        ("organism", AnnValue.str (pstr "Escherichia coli")),
        ("source", AnnValue.str (pstr "E coli")),
        ("taxonomy", AnnValue.strList [pstr "Bacteria"]),
        ("topology", AnnValue.str (pstr "linear")),
        ("gi", AnnValue.str (pstr "123")),
        ("accessions", AnnValue.strList [pstr "X1"]),
        ("sequence_version", AnnValue.int 1)]) := by
  refine ⟨rfl, fun h => ?_⟩
  have := h.length_eq
  simp at this

/-- Claim C1 as amended: for a record whose annotations are exactly the
enumerated scalar fields in source order — with a division that is not itself
"circular"/"linear", keywords and accessions already lexicographically
sorted, a non-empty source, a non-empty gi, a non-empty comma-free taxonomy,
and no references — the round trip reproduces the record id and every
annotation except that sequence_version is forced to the constant
DEFAULT_GB_SEQ_VERSION (1) on the reverse path, and the value stored on the
forward path additionally leaks out under the misspelled annotation key
sequnce_version. -/
theorem C1_roundtrip_amended
    (idp namep d dv mt org src tp g : PyStr) (ks acc tax : List PyStr) (v : Int)
    (hdv1 : dv ≠ pstr "circular") (hdv2 : dv ≠ pstr "linear")
    (hks : ks.Pairwise fun a b => pyStrLe a b = true)
    (hacc : acc.Pairwise fun a b => pyStrLe a b = true)
    (hsrc : src ≠ pstr "")
    (hg : g ≠ [])
    (htax1 : tax ≠ []) (htax2 : tax ≠ [[]])
    (htax3 : ∀ s ∈ tax, ',' ∉ s) :
    annRoundTrip ⟨idp, namep,
      [("date", AnnValue.str d), ("data_file_division", AnnValue.str dv),
       ("keywords", AnnValue.strList ks), ("molecule_type", AnnValue.str mt),
       ("organism", AnnValue.str org), ("source", AnnValue.str src),
       ("taxonomy", AnnValue.strList tax), ("topology", AnnValue.str tp),
       ("gi", AnnValue.str g), ("accessions", AnnValue.strList acc),
       ("sequence_version", AnnValue.int v)]⟩
    = .ok (some idp,
      [("date", AnnValue.str d), ("data_file_division", AnnValue.str dv),
       ("keywords", AnnValue.strList ks), ("molecule_type", AnnValue.str mt),
       ("organism", AnnValue.str org), ("source", AnnValue.str src),
       ("taxonomy", AnnValue.strList tax), ("topology", AnnValue.str tp),
       ("gi", AnnValue.str g), ("accessions", AnnValue.strList acc),
       ("sequnce_version", AnnValue.int v),
       ("sequence_version", AnnValue.int DEFAULT_GB_SEQ_VERSION)]) := by
  have hkse : pySortedStrs ks = ks := pySortBy_of_pairwise pyStrLe ks hks
  have hacce : pySortedStrs acc = acc := pySortBy_of_pairwise pyStrLe acc hacc
  have hj : pyJoin ',' tax ≠ [] := pyJoin_ne_nil tax htax1 htax2
  have hsplit : pySplitAll ',' (pyJoin ',' tax) = tax :=
    pySplitAll_pyJoin ',' tax htax1 htax3
  simp [annRoundTrip, storeExtraPropertiesInSbol3, processAnns, storeAnnStep,
    resetExtraPropertiesInGenbank, optToAnn, optIntToAnn,
    hdv1, hdv2, hsrc, hg, hj, hkse, hacce, hsplit]

/-- Witness for the amended C1 at a concrete canonical record with
sequence_version 5: the output forces sequence_version to 1 and leaks 5 under
the misspelled key. -/
theorem C1_roundtrip_amended_witness :
    annRoundTrip ⟨pstr "ID1", pstr "NM1",
      [("date", AnnValue.str (pstr "01-JAN-2000")),
       ("data_file_division", AnnValue.str (pstr "PLN")),
       ("keywords", AnnValue.strList [pstr "a", pstr "b"]),
       ("molecule_type", AnnValue.str (pstr "DNA")),
       ("organism", AnnValue.str (pstr "Org")),
       ("source", AnnValue.str (pstr "Src")),
       ("taxonomy", AnnValue.strList [pstr "Bacteria"]),
       ("topology", AnnValue.str (pstr "linear")),
       ("gi", AnnValue.str (pstr "123")),
       ("accessions", AnnValue.strList [pstr "X1"]),
       ("sequence_version", AnnValue.int 5)]⟩
    = .ok (some (pstr "ID1"),
      [("date", AnnValue.str (pstr "01-JAN-2000")),
       ("data_file_division", AnnValue.str (pstr "PLN")),
       ("keywords", AnnValue.strList [pstr "a", pstr "b"]),
       ("molecule_type", AnnValue.str (pstr "DNA")),
       ("organism", AnnValue.str (pstr "Org")),
       ("source", AnnValue.str (pstr "Src")),
       ("taxonomy", AnnValue.strList [pstr "Bacteria"]),
       ("topology", AnnValue.str (pstr "linear")),
       ("gi", AnnValue.str (pstr "123")),
       ("accessions", AnnValue.strList [pstr "X1"]),
       ("sequnce_version", AnnValue.int 5),
       ("sequence_version", AnnValue.int DEFAULT_GB_SEQ_VERSION)]) :=
  C1_roundtrip_amended (pstr "ID1") (pstr "NM1") (pstr "01-JAN-2000") (pstr "PLN")
    (pstr "DNA") (pstr "Org") (pstr "Src") (pstr "linear") (pstr "123")
    [pstr "a", pstr "b"] [pstr "X1"] [pstr "Bacteria"] 5
    (by decide) (by decide) (by decide) (by decide) (by decide) (by decide)
    (by decide) (by decide) (by decide)
